import Mathlib

set_option maxRecDepth 100000

/-!
Verification development for the image-gen-test repository.

We shallowly embed the push engine of pkg/registry/proxy.go (namespace
ImageGen), the older variant of the same file shipped as an unnamed source
part (namespace CheckHealth), and the authenticated transport of
pkg/registry/transport.go (namespace RegTransport).

Modelling conventions:
- Go byte slices are modelled as Lean Strings (GoBytes).
- digest.FromBytes is modelled as an injective tagging function on the
  literal bytes (a perfect-hash model of content addressing).
- json.Marshal of config/manifest/index values is modelled by deterministic
  injective string encodings derived from the same structured values the Go
  code serializes.
- The containerd resolver/pusher capability is modelled by a registry state
  (the set of digests present) plus an external failure oracle (Env.netFail)
  standing for network or registry-side errors; content.Copy verifies the
  declared size and digest against the uploaded bytes, as containerd does.
- time.Now() and uuid.New() are modelled by oracles in Env, consumed via a
  clock counter in the state.
- Every call into the push capability is recorded as a trace event, exactly
  in program order (the test-double recording the spec asks for).
-/

namespace Reg

abbrev GoBytes := String

abbrev Digest := String

/-- Model of digest.FromBytes: an injective content-addressing of the literal
bytes. -/
def digestFromBytes (b : GoBytes) : Digest := "sha256:" ++ b

/-- Model of ociimagespec.Descriptor (media type, digest, size). -/
structure Descriptor where
  mediaType : String
  digest : Digest
  size : Nat
deriving DecidableEq, Repr

/-- Model of ociimagespec.Manifest as built by the repository (schema
version, media type, config, layers, optional subject pointer, optional
artifact type). -/
structure Manifest where
  schemaVersion : Nat
  mediaType : String
  config : Descriptor
  layers : List Descriptor
  subject : Option Descriptor
  artifactType : Option String
deriving DecidableEq, Repr

/-- Model of ociimagespec.Index. -/
structure Index where
  schemaVersion : Nat
  mediaType : Option String
  manifests : List Descriptor
deriving DecidableEq, Repr

def jsonDescriptor (d : Descriptor) : String :=
  "\x7b\"mediaType\":\"" ++ d.mediaType ++ "\",\"digest\":\"" ++ d.digest
    ++ "\",\"size\":" ++ toString d.size ++ "\x7d"

def jsonDescList : List Descriptor → String
  | [] => ""
  | [d] => jsonDescriptor d
  | d :: rest => jsonDescriptor d ++ "," ++ jsonDescList rest

/-- Model of json.Marshal on the manifest value. -/
def jsonManifest (m : Manifest) : GoBytes :=
  "\x7b\"schemaVersion\":" ++ toString m.schemaVersion
    ++ ",\"mediaType\":\"" ++ m.mediaType ++ "\""
    ++ ",\"config\":" ++ jsonDescriptor m.config
    ++ ",\"layers\":[" ++ jsonDescList m.layers ++ "]"
    ++ (match m.subject with
        | some s => ",\"subject\":" ++ jsonDescriptor s
        | none => "")
    ++ (match m.artifactType with
        | some a => ",\"artifactType\":\"" ++ a ++ "\""
        | none => "")
    ++ "\x7d"

/-- Model of json.Marshal on the index value. -/
def jsonIndex (x : Index) : GoBytes :=
  "\x7b\"schemaVersion\":" ++ toString x.schemaVersion
    ++ (match x.mediaType with
        | some mt => ",\"mediaType\":\"" ++ mt ++ "\""
        | none => "")
    ++ ",\"manifests\":[" ++ jsonDescList x.manifests ++ "]"
    ++ "\x7d"

/-- The payload handed to an upload, tagged with the structured value it was
serialized from (the tag is observational, for the recording double). -/
inductive Payload where
  | blob (data : GoBytes)
  | manifestP (m : Manifest) (data : GoBytes)
  | indexP (x : Index) (data : GoBytes)
deriving DecidableEq, Repr

def Payload.data : Payload → GoBytes
  | .blob b => b
  | .manifestP _ b => b
  | .indexP _ b => b

/-- Errors surfaced by the upload path: an external (network / registry)
failure at a given call index, or containerd's size/digest verification
failure in content.Copy. -/
inductive Err where
  | network (callIdx : Nat)
  | digestMismatch (d : Descriptor)
deriving DecidableEq, Repr

/-- Push-capability interaction events, in program order.  call: the upload
was issued (pusher.Push invoked); transfer: bytes were actually copied;
done: content at the descriptor digest is present (freshly transferred or
already existing); failed: the upload errored. -/
inductive Event where
  | call (d : Descriptor) (p : Payload)
  | transfer (d : Descriptor)
  | done (d : Descriptor)
  | failed (d : Descriptor) (e : Err)
deriving DecidableEq, Repr

/-- Registry-interaction state: digests present in the registry, the
time-oracle cursor, and the upload-call counter. -/
structure St where
  present : List Digest
  clock : Nat
  callIdx : Nat
deriving DecidableEq, Repr

/-- External oracles: per-call network/registry failure injection, the
time.Now() stream, and the uuid.New() stream. -/
structure Env where
  netFail : Nat → Bool
  time : Nat → Nat
  uuid : Nat → String

/-- Model of uploadBytes (proxy.go): pusher.Push reports a distinguishable
already-exists condition when the digest is present (treated as success with
no transfer); otherwise the transfer runs, and content.Copy verifies the
declared size and digest against the literal bytes. -/
def uploadBytes (env : Env) (s : St) (desc : Descriptor) (p : Payload) :
    St × List Event × Option Err :=
  let s1 : St := { s with callIdx := s.callIdx + 1 }
  if desc.digest ∈ s.present then
    (s1, [.call desc p, .done desc], none)
  else if env.netFail s.callIdx then
    (s1, [.call desc p, .failed desc (.network s.callIdx)], some (.network s.callIdx))
  else if desc.size = p.data.length ∧ desc.digest = digestFromBytes p.data then
    ({ s1 with present := desc.digest :: s1.present },
      [.call desc p, .transfer desc, .done desc], none)
  else
    (s1, [.call desc p, .failed desc (.digestMismatch desc)], some (.digestMismatch desc))

end Reg

namespace ImageGen

open Reg

/-! Embedding of pkg/registry/proxy.go (the current version of the file). -/

def author : String := "esrey"

def imagegenConfigMediaType : String := "application/acr.imagegent.test"

def imagegenArtifactType : String := "application/acr.imagegent.artifact.test"

def mediaTypeImageManifest : String := "application/vnd.oci.image.manifest.v1+json"

def mediaTypeImageLayer : String := "application/vnd.oci.image.layer.v1.tar"

def mediaTypeImageIndex : String := "application/vnd.oci.image.index.v1+json"

def mediaTypeScratch : String := "application/vnd.oci.scratch.v1+json"

/-- Model of json.Marshal(ociConfig) where ociConfig = Image{Author: author}. -/
def ociConfigBytes : GoBytes := "\x7b\"author\":\"" ++ author ++ "\"\x7d"

/-- The config descriptor pushOCIImage builds from the marshalled config. -/
def configDescOf (b : GoBytes) : Descriptor :=
  ⟨imagegenConfigMediaType, digestFromBytes b, b.length⟩

/-- Model of ociimagespec.ScratchDescriptor: the well-known two-byte payload. -/
def scratchData : GoBytes := "\x7b\x7d"

def ScratchDescriptor : Descriptor :=
  ⟨mediaTypeScratch, digestFromBytes scratchData, scratchData.length⟩

/-- The synthetic layer payload: fmt.Sprintf("TestLayer %s %d-at-time %s", tag, i, time.Now()). -/
def layerBytesOf (tag : String) (i : Nat) (t : Nat) : GoBytes :=
  "TestLayer " ++ tag ++ " " ++ toString i ++ "-at-time " ++ toString t

def layerDescOf (b : GoBytes) : Descriptor :=
  ⟨mediaTypeImageLayer, digestFromBytes b, b.length⟩

/-- The layer loop of pushOCIImage: for each remaining layer, synthesize the
layer bytes from tag/index/time, build the descriptor from those bytes, and
upload; an upload error aborts the loop immediately. -/
def uploadImageLayers (env : Env) (s : St) (tag : String) (i : Nat) :
    Nat → St × List Event × Except Err (List Descriptor)
  | 0 => (s, [], .ok [])
  | remaining + 1 =>
    let t := env.time s.clock
    let s0 : St := { s with clock := s.clock + 1 }
    let lb := layerBytesOf tag i t
    let ld := layerDescOf lb
    match uploadBytes env s0 ld (.blob lb) with
    | (s1, e1, some e) => (s1, e1, .error e)
    | (s1, e1, none) =>
      match uploadImageLayers env s1 tag (i + 1) remaining with
      | (s2, e2, .error e) => (s2, e1 ++ e2, .error e)
      | (s2, e2, .ok rest) => (s2, e1 ++ e2, .ok (ld :: rest))

/-- Model of (Proxy) pushOCIImage: upload config blob, upload layers, then
assemble and upload the manifest; any error aborts immediately. -/
def pushOCIImage (env : Env) (s : St) (_repo tag : String) (configB : GoBytes)
    (layercount : Nat) : St × List Event × Except Err Descriptor :=
  let configDesc := configDescOf configB
  match uploadBytes env s configDesc (.blob configB) with
  | (s1, e1, some e) => (s1, e1, .error e)
  | (s1, e1, none) =>
    match uploadImageLayers env s1 tag 0 layercount with
    | (s2, e2, .error e) => (s2, e1 ++ e2, .error e)
    | (s2, e2, .ok layerDescs) =>
      let man : Manifest :=
        ⟨2, mediaTypeImageManifest, configDesc, layerDescs, none, none⟩
      let mb := jsonManifest man
      let manifestDesc : Descriptor :=
        ⟨mediaTypeImageManifest, digestFromBytes mb, mb.length⟩
      match uploadBytes env s2 manifestDesc (.manifestP man mb) with
      | (s3, e3, some e) => (s3, e1 ++ e2 ++ e3, .error e)
      | (s3, e3, none) => (s3, e1 ++ e2 ++ e3, .ok manifestDesc)

/-- Model of artifactConstructOptions (proxy.go). -/
structure artifactConstructOptions where
  includesArtifactType : Bool
  configIsScratch : Bool
  layersAreScratch : Bool
  layercount : Nat
  hasSubject : Bool
  subjectInRegistry : Bool
  errorExpected : Bool
deriving DecidableEq, Repr

/-- The layer loop of pushOCIArtifact: scratch layers reuse the scratch
descriptor (uploading the scratch blob only at i = 0 and only when the config
was not already scratch); non-scratch layers are synthesized and their
descriptor appended WITHOUT any upload — the source only builds the
descriptor from the layer bytes and never calls uploadBytes for it. -/
def uploadArtifactLayers (env : Env) (s : St) (tag : String)
    (opts : artifactConstructOptions) (i : Nat) :
    Nat → St × List Event × Except Err (List Descriptor)
  | 0 => (s, [], .ok [])
  | remaining + 1 =>
    if opts.layersAreScratch then
      if ¬opts.configIsScratch ∧ i = 0 then
        match uploadBytes env s ScratchDescriptor (.blob scratchData) with
        | (s1, e1, some e) => (s1, e1, .error e)
        | (s1, e1, none) =>
          match uploadArtifactLayers env s1 tag opts (i + 1) remaining with
          | (s2, e2, .error e) => (s2, e1 ++ e2, .error e)
          | (s2, e2, .ok rest) => (s2, e1 ++ e2, .ok (ScratchDescriptor :: rest))
      else
        match uploadArtifactLayers env s tag opts (i + 1) remaining with
        | (s2, e2, .error e) => (s2, e2, .error e)
        | (s2, e2, .ok rest) => (s2, e2, .ok (ScratchDescriptor :: rest))
    else
      let t := env.time s.clock
      let s0 : St := { s with clock := s.clock + 1 }
      let lb := layerBytesOf tag i t
      let ld := layerDescOf lb
      match uploadArtifactLayers env s0 tag opts (i + 1) remaining with
      | (s2, e2, .error e) => (s2, e2, .error e)
      | (s2, e2, .ok rest) => (s2, e2, .ok (ld :: rest))

/-- Model of (Proxy) pushOCIArtifact.  Note the faithful quirk of the source:
the manifest's Config field is always ociimagespec.ScratchDescriptor, even
when a real (non-scratch) config was marshalled and uploaded. -/
def pushOCIArtifact (env : Env) (s : St) (subject : Descriptor)
    (_repo tag : String) (opts : artifactConstructOptions) :
    St × List Event × Except Err Descriptor :=
  let configDescriptor :=
    if opts.configIsScratch then ScratchDescriptor else configDescOf ociConfigBytes
  let configB := if opts.configIsScratch then scratchData else ociConfigBytes
  match uploadBytes env s configDescriptor (.blob configB) with
  | (s1, e1, some e) => (s1, e1, .error e)
  | (s1, e1, none) =>
    match uploadArtifactLayers env s1 tag opts 0 opts.layercount with
    | (s2, e2, .error e) => (s2, e1 ++ e2, .error e)
    | (s2, e2, .ok layerDescs) =>
      let man : Manifest :=
        ⟨2, mediaTypeImageManifest, ScratchDescriptor, layerDescs, some subject,
          if opts.includesArtifactType then some imagegenArtifactType else none⟩
      let mb := jsonManifest man
      let manifestDesc : Descriptor :=
        ⟨mediaTypeImageManifest, digestFromBytes mb, mb.length⟩
      match uploadBytes env s2 manifestDesc (.manifestP man mb) with
      | (s3, e3, some e) => (s3, e1 ++ e2 ++ e3, .error e)
      | (s3, e3, none) => (s3, e1 ++ e2 ++ e3, .ok manifestDesc)

/-- The image loop of GenerateOCIIndex: push the i-th simple image with tag
"tag-oci-i" and 2 layers; the first error aborts the loop. -/
def pushIndexImages (env : Env) (s : St) (repo tag : String) (i : Nat) :
    Nat → St × List Event × Except Err (List Descriptor)
  | 0 => (s, [], .ok [])
  | remaining + 1 =>
    match pushOCIImage env s repo (tag ++ "-oci-" ++ toString i) ociConfigBytes 2 with
    | (s1, e1, .error e) => (s1, e1, .error e)
    | (s1, e1, .ok desc) =>
      match pushIndexImages env s1 repo tag (i + 1) remaining with
      | (s2, e2, .error e) => (s2, e1 ++ e2, .error e)
      | (s2, e2, .ok rest) => (s2, e1 ++ e2, .ok (desc :: rest))

/-- Model of (Proxy) GenerateOCIIndex: push 11 simple images, then assemble
and upload the index referencing their manifest descriptors; the first error
aborts immediately. -/
def GenerateOCIIndex (env : Env) (s : St) (hasMediaType : Bool) :
    St × List Event × Except Err Unit :=
  let tag := toString (env.time (s.clock + 1))
  let s0 : St := { s with clock := s.clock + 2 }
  match pushIndexImages env s0 "repo" tag 0 11 with
  | (s1, e1, .error e) => (s1, e1, .error e)
  | (s1, e1, .ok manifests) =>
    let x : Index := ⟨2, if hasMediaType then some mediaTypeImageIndex else none, manifests⟩
    let xb := jsonIndex x
    let indexDesc : Descriptor := ⟨mediaTypeImageIndex, digestFromBytes xb, xb.length⟩
    match uploadBytes env s1 indexDesc (.indexP x xb) with
    | (s2, e2, some e) => (s2, e1 ++ e2, .error e)
    | (s2, e2, none) => (s2, e1 ++ e2, .ok ())

/-- The fixed test matrix of GenerateOCIArtifacts, in declaration order. -/
def artifactOpts : List artifactConstructOptions :=
  [ ⟨true, true, true, 1, true, true, false⟩,
    ⟨true, false, false, 3, true, true, false⟩,
    ⟨false, true, true, 1, true, true, true⟩,
    ⟨true, true, false, 1, true, true, false⟩,
    ⟨false, false, true, 1, true, true, false⟩,
    ⟨true, true, true, 1, false, false, false⟩,
    ⟨false, true, true, 1, false, false, false⟩,
    ⟨true, true, false, 0, false, false, true⟩ ]

/-- The per-case classification the runner logs. -/
inductive LogEntry where
  | expectedError (i : Nat) (e : Err)
  | unexpectedError (i : Nat) (e : Err)
  | success (i : Nat)
deriving DecidableEq, Repr

def LogEntry.idx : LogEntry → Nat
  | .expectedError i _ => i
  | .unexpectedError i _ => i
  | .success i => i

def tagPref : String := "genimage"

/-- The subject descriptor used when hasSubject is set but the subject must
be absent from the registry: a descriptor over a fresh uuid string. -/
def uuidDescriptor (u : String) : Descriptor :=
  ⟨mediaTypeImageIndex, digestFromBytes u, u.length⟩

def emptyDescriptor : Descriptor := ⟨"", "", 0⟩

/-- The matrix loop of GenerateOCIArtifacts: for each entry select the
subject, attempt the artifact push, log the classification of the outcome
against errorExpected, and continue with the next entry regardless. -/
def runArtifactCases (env : Env) (s : St) (subjectDesc : Descriptor) (i : Nat) :
    List artifactConstructOptions → St × List Event × List LogEntry
  | [] => (s, [], [])
  | opt :: rest =>
    let subject :=
      if opt.hasSubject then
        if opt.subjectInRegistry then subjectDesc else uuidDescriptor (env.uuid i)
      else emptyDescriptor
    let (s1, e1, r1) :=
      pushOCIArtifact env s subject "repo" (tagPref ++ "-oci-" ++ toString i) opt
    let entry : LogEntry :=
      match r1 with
      | .error e => if opt.errorExpected then .expectedError i e else .unexpectedError i e
      | .ok _ => .success i
    match runArtifactCases env s1 subjectDesc (i + 1) rest with
    | (s2, e2, logs) => (s2, e1 ++ e2, entry :: logs)

/-- Model of (Proxy) GenerateOCIArtifacts: push the shared subject image
once up front (an error there returns immediately with no case attempted),
then run every matrix entry, always returning success. -/
def GenerateOCIArtifacts (env : Env) (s : St) :
    St × List Event × List LogEntry × Except Err Unit :=
  match pushOCIImage env s "repo" "oci-subject" ociConfigBytes 2 with
  | (s1, e1, .error e) => (s1, e1, [], .error e)
  | (s1, e1, .ok subjectDesc) =>
    match runArtifactCases env s1 subjectDesc 0 artifactOpts with
    | (s2, e2, logs) => (s2, e1 ++ e2, logs, .ok ())

end ImageGen

namespace CheckHealth

open Reg

/-!
Embedding of the unnamed source part that is the older variant of
pkg/registry/proxy.go (package registry, "ACR Check Health" constants).
Its pushOCIImage builds each layer Descriptor with digest and size computed
from the CONFIG bytes while uploading the layer bytes; we embed that
faithfully.
-/

def checkHealthAuthor : String := "ACR Check Health"

def checkHealthMediaType : String := "application/acr.checkhealth.test"

/-- Model of json.Marshal(ociConfig) for ociConfig = Image{Author: checkHealthAuthor}. -/
def ociConfigBytes : GoBytes := "\x7b\"author\":\"" ++ checkHealthAuthor ++ "\"\x7d"

/-- Model of fmt.Sprintf(checkHealthLayerFmt, time.Now(), i): the format
string has a single %s verb, so Go renders the extra int argument with the
%!(EXTRA ...) marker. -/
def layerBytesOf (t : Nat) (i : Nat) : GoBytes :=
  "Test layer authored by ACR Check Health at " ++ toString t
    ++ "%!(EXTRA int=" ++ toString i ++ ")"

/-- The layer loop of the older pushOCIImage: layer bytes are synthesized per
layer, but the layer Descriptor's digest and size are computed from the
config bytes (the copy-paste slip). -/
def uploadLayers (env : Env) (s : St) (configB : GoBytes) (i : Nat) :
    Nat → St × List Event × Except Err (List Descriptor)
  | 0 => (s, [], .ok [])
  | remaining + 1 =>
    let t := env.time s.clock
    let s0 : St := { s with clock := s.clock + 1 }
    let lb := layerBytesOf t i
    let ld : Descriptor :=
      ⟨ImageGen.mediaTypeImageLayer, digestFromBytes configB, configB.length⟩
    match uploadBytes env s0 ld (.blob lb) with
    | (s1, e1, some e) => (s1, e1, .error e)
    | (s1, e1, none) =>
      match uploadLayers env s1 configB (i + 1) remaining with
      | (s2, e2, .error e) => (s2, e1 ++ e2, .error e)
      | (s2, e2, .ok rest) => (s2, e1 ++ e2, .ok (ld :: rest))

/-- Model of the older pushOCIImage. -/
def pushOCIImage (env : Env) (s : St) (_repo _tag : String) (configB : GoBytes)
    (layercount : Nat) : St × List Event × Except Err Descriptor :=
  let configDesc : Descriptor :=
    ⟨checkHealthMediaType, digestFromBytes configB, configB.length⟩
  match uploadBytes env s configDesc (.blob configB) with
  | (s1, e1, some e) => (s1, e1, .error e)
  | (s1, e1, none) =>
    match uploadLayers env s1 configB 0 layercount with
    | (s2, e2, .error e) => (s2, e1 ++ e2, .error e)
    | (s2, e2, .ok layerDigests) =>
      let man : Manifest :=
        ⟨2, ImageGen.mediaTypeImageManifest, configDesc, layerDigests, none, none⟩
      let mb := jsonManifest man
      let manifestDesc : Descriptor :=
        ⟨ImageGen.mediaTypeImageManifest, digestFromBytes mb, mb.length⟩
      match uploadBytes env s2 manifestDesc (.manifestP man mb) with
      | (s3, e3, some e) => (s3, e1 ++ e2 ++ e3, .error e)
      | (s3, e3, none) => (s3, e1 ++ e2 ++ e3, .ok manifestDesc)

end CheckHealth

namespace RegTransport

/-!
Embedding of pkg/registry/transport.go: parseAuthHeader, getToken and
roundTrip, driven by an abstract round-tripper double.  The double is a pure
function from requests to results; roundTrip additionally returns the list
of requests it handed to the double, in order, so that statements about
which requests were issued are direct.
-/

/-- The auth mechanisms supported by transport. -/
inductive authType where
  | noAuth
  | basicAuth
  | bearerAuth
deriving DecidableEq, Repr

structure Transport where
  authType : authType
  username : String
  password : String
deriving DecidableEq, Repr

/-- An HTTP request as transport builds it: method, URL, whether a body is
attached, the optional Content-Type/Accept/Authorization headers, optional
basic-auth credentials, and the encoded query parameters (in the sorted
order url.Values.Encode emits). -/
structure HttpReq where
  method : String
  url : String
  hasBody : Bool
  contentType : Option String
  accept : Option String
  authorization : Option String
  basicAuth : Option (String × String)
  query : List (String × String)
deriving DecidableEq, Repr

/-- The decoded JSON body of a token-endpoint response, as json.Unmarshal
into struct{AccessToken string} sees it: either not valid JSON, or an object
in which the access_token field is present or missing. -/
inductive JsonBody where
  | invalid
  | obj (accessToken : Option String)
deriving DecidableEq, Repr

/-- The slice of RoundTripInfo the transport code inspects: status code,
Www-Authenticate header, and decoded body. -/
structure RoundTripInfo where
  code : Nat
  challenge : String
  body : JsonBody
deriving DecidableEq, Repr

/-- Errors of the transport path. -/
inductive TError where
  | tripper (n : Nat)
  | msg (s : String)
  | jsonDecode
deriving DecidableEq, Repr

/-- The round-tripper double. -/
abbrev Tripper := HttpReq → Except TError RoundTripInfo

/-- The content of a registry request (registryRequest in the source); a Go
zero-value "" header means the header is not set. -/
structure RegistryRequest where
  method : String
  url : String
  hasBody : Bool
  contentType : String
  accept : String
deriving DecidableEq, Repr

/-- strings.ToLower on a character, modelled for the ASCII range (all
schemes and keys the code compares against are ASCII). -/
def lowerChar (c : Char) : Char :=
  if 65 ≤ c.toNat ∧ c.toNat ≤ 90 then Char.ofNat (c.toNat + 32) else c

/-- strings.ToLower, modelled per character. -/
def lowerStr (s : String) : String := String.mk (s.data.map lowerChar)

/-- strings.SplitN(s, " ", 2) on the character list: the part before the
first space, and the remainder when a space exists. -/
def splitFirstSpace : List Char → List Char × Option (List Char)
  | [] => ([], none)
  | c :: rest =>
    if c = ' ' then ([], some rest)
    else
      let (a, b) := splitFirstSpace rest
      (c :: a, b)

/-- The greedy capture of [^"]*: the characters before the next quote, and
the rest of the input starting at that quote (the quote is not part of the
regex match). -/
def takeVal : List Char → List Char × List Char
  | [] => ([], [])
  | c :: rest =>
    if c = '"' then ([], c :: rest)
    else
      let (v, r) := takeVal rest
      (c :: v, r)

def tryKey1 (kw : List Char) (l : List Char) : Option (List Char) :=
  if kw.isPrefixOf l then some (l.drop kw.length) else none

/-- Attempt to match the alternation (realm|service|scope)=" at the head of
the input, returning the matched key and the input after the opening quote. -/
def tryKeys (l : List Char) : Option (String × List Char) :=
  match tryKey1 "realm=\"".data l with
  | some r => some ("realm", r)
  | none =>
    match tryKey1 "service=\"".data l with
    | some r => some ("service", r)
    | none =>
      match tryKey1 "scope=\"".data l with
      | some r => some ("scope", r)
      | none => none

/-- The left-to-right non-overlapping scan of
authHeaderRegex.FindAllStringSubmatch: at each position try the keyed
pattern; on a match, capture up to the next quote and resume there.  Fuel is
the input length, which bounds the number of steps. -/
def scanAuth : Nat → List Char → List (String × String)
  | 0, _ => []
  | _ + 1, [] => []
  | fuel + 1, c :: rest =>
    match tryKeys (c :: rest) with
    | some (k, after) =>
      let (v, r) := takeVal after
      (k, String.mk v) :: scanAuth fuel r
    | none => scanAuth fuel rest

/-- Go map assignment: replace the binding if the key exists, else append. -/
def mput : List (String × String) → String → String → List (String × String)
  | [], k, v => [(k, v)]
  | (k0, v0) :: rest, k, v =>
    if k0 = k then (k0, v) :: rest else (k0, v0) :: mput rest k v

/-- Go map lookup returning an Option. -/
def mget (m : List (String × String)) (k : String) : Option String :=
  match m with
  | [] => none
  | (k0, v) :: rest => if k0 = k then some v else mget rest k

/-- Model of parseAuthHeader: split on the first space, lowercase the scheme
token; when a parameter part exists, collect the regex matches into a map,
lowercasing each matched key.  A nil Go map is modelled as the empty map. -/
def parseAuthHeader (header : String) : String × List (String × String) :=
  let (w, restOpt) := splitFirstSpace header.data
  let scheme := lowerStr (String.mk w)
  match restOpt with
  | none => (scheme, [])
  | some rest =>
    let ms := scanAuth rest.length rest
    (scheme, ms.foldl (fun m kv => mput m (lowerStr kv.1) kv.2) [])

/-- The token request getToken builds from the challenge parameters: GET to
the realm URL, service and scope (when present) as query parameters in
Encode order (scope sorts before service), basic auth iff a username is set. -/
def tokenReqOf (t : Transport) (params : List (String × String)) : HttpReq :=
  { method := "GET"
    url := (mget params "realm").getD ""
    hasBody := false
    contentType := none
    accept := none
    authorization := none
    basicAuth := if t.username ≠ "" then some (t.username, t.password) else none
    query :=
      (match mget params "scope" with
       | some v => [("scope", v)]
       | none => [])
      ++ (match mget params "service" with
          | some v => [("service", v)]
          | none => []) }

/-- Model of getToken: issue the token request; a non-200 status is an error
naming expected vs actual; a 200 body is decoded as JSON, a decode failure
is an error, and the AccessToken field (the empty string when the field is
missing) is returned. -/
def getToken (t : Transport) (tripper : Tripper) (params : List (String × String)) :
    List HttpReq × Except TError String :=
  let req := tokenReqOf t params
  match tripper req with
  | .error e => ([req], .error e)
  | .ok info =>
    if info.code ≠ 200 then
      ([req], .error (.msg ("get access token failed, expected: 200, got: "
        ++ toString info.code)))
    else
      match info.body with
      | .invalid => ([req], .error .jsonDecode)
      | .obj tok => ([req], .ok (tok.getD ""))

/-- The probe request of bearer mode: same method and URL, no body, no
headers, no auth. -/
def probeOf (regReq : RegistryRequest) : HttpReq :=
  { method := regReq.method, url := regReq.url, hasBody := false
    contentType := none, accept := none, authorization := none
    basicAuth := none, query := [] }

/-- The real request before auth is attached. -/
def baseReqOf (regReq : RegistryRequest) : HttpReq :=
  { method := regReq.method, url := regReq.url, hasBody := regReq.hasBody
    contentType := if regReq.contentType = "" then none else some regReq.contentType
    accept := if regReq.accept = "" then none else some regReq.accept
    authorization := none, basicAuth := none, query := [] }

/-- Model of (transport) roundTrip.  Returns the requests handed to the
round-tripper, in order, together with the result the caller sees. -/
def roundTrip (t : Transport) (tripper : Tripper) (regReq : RegistryRequest) :
    List HttpReq × Except TError RoundTripInfo :=
  let baseReq := baseReqOf regReq
  match t.authType with
  | .bearerAuth =>
    let probe := probeOf regReq
    match tripper probe with
    | .error e => ([probe], .error e)
    | .ok info =>
      if info.code ≠ 401 then
        ([probe], .error (.msg "failed to get challenge"))
      else
        let sp := parseAuthHeader info.challenge
        if sp.1 = "bearer" then
          match getToken t tripper sp.2 with
          | (reqs, .error e) => (probe :: reqs, .error e)
          | (reqs, .ok token) =>
            let real : HttpReq := { baseReq with authorization := some ("Bearer " ++ token) }
            (probe :: reqs ++ [real], tripper real)
        else
          ([probe], .error (.msg "server does not support bearer authentication"))
  | .basicAuth =>
    if t.username = "" then ([], .error (.msg "username not provided"))
    else
      let real : HttpReq := { baseReq with basicAuth := some (t.username, t.password) }
      ([real], tripper real)
  | .noAuth => ([baseReq], tripper baseReq)

end RegTransport

namespace Check

open Reg

/-!
Trace checkers: decidable observations over the recorded event traces, used
to state ordering, content-addressing and failure-propagation properties.
-/

/-- The digests whose upload has completed after processing the events, on
top of an initial accumulator. -/
def accDones : List Event → List Digest → List Digest
  | [], ds => ds
  | .done d :: evs, ds => accDones evs (d.digest :: ds)
  | _ :: evs, ds => accDones evs ds

/-- Ordering checker: scanning the trace left to right with the set of
completed digests, every issued upload call must only reference (according
to refs) descriptors whose upload already completed. -/
def orderedFrom (refs : Payload → List Descriptor) :
    List Event → List Digest → Bool
  | [], _ => true
  | .call _ p :: evs, ds =>
    (refs p).all (fun r => decide (r.digest ∈ ds)) && orderedFrom refs evs ds
  | .done d :: evs, ds => orderedFrom refs evs (d.digest :: ds)
  | _ :: evs, ds => orderedFrom refs evs ds

/-- All descriptors a manifest or index payload references: config, layers
and subject for manifests, the member manifests for indexes. -/
def refsFull : Payload → List Descriptor
  | .blob _ => []
  | .manifestP m _ =>
    m.config :: m.layers ++ (match m.subject with | some s => [s] | none => [])
  | .indexP x _ => x.manifests

/-- The amended reference set: every referenced descriptor of subject-free
manifests (the ones pushOCIImage builds) and of indexes; subject-bearing
manifests — the ones pushOCIArtifact builds, since it always attaches a
subject pointer — are exempt, because that function uploads neither the
fresh layer blobs its manifest references, nor its subject, nor on every
path the scratch blob its manifest references as config. -/
def refsAmended : Payload → List Descriptor
  | .blob _ => []
  | .manifestP m _ =>
    match m.subject with
    | some _ => []
    | none => m.config :: m.layers
  | .indexP x _ => x.manifests

/-- Content-addressing checker: every issued upload call carries a
descriptor whose digest and size are computed from the literal bytes of the
payload uploaded with it. -/
def descsMatch (evs : List Event) : Bool :=
  evs.all (fun ev =>
    match ev with
    | .call d p => d.digest = digestFromBytes p.data && d.size = p.data.length
    | _ => true)

/-- True when the trace contains no failed upload. -/
def noFailB (evs : List Event) : Bool :=
  evs.all (fun ev =>
    match ev with
    | .failed _ _ => false
    | _ => true)

/-- The trace stops at its first failing upload with error e: everything
before the final call succeeded, and nothing follows the failure. -/
def stopsAtFirst (evs : List Event) (e : Err) : Prop :=
  ∃ pre d p, evs = pre ++ [.call d p, .failed d e] ∧ noFailB pre = true

/-- The config descriptors referenced by the manifests whose upload was
issued in the trace, in order. -/
def manifestConfigsOf (evs : List Event) : List Descriptor :=
  evs.filterMap (fun ev =>
    match ev with
    | .call _ (.manifestP m _) => some m.config
    | _ => none)

end Check

namespace Fixtures

open Reg ImageGen RegTransport

/-! Concrete oracles and inputs used by witnesses and counterexamples. -/

/-- A failure-free environment: no injected upload failures, the time oracle
returns its cursor, uuids are distinct strings. -/
def env0 : Env := ⟨fun _ => false, fun n => n, fun i => "uuid-" ++ toString i⟩

/-- An environment whose very first upload call fails. -/
def envFail0 : Env := ⟨fun n => n = 0, fun n => n, fun i => "uuid-" ++ toString i⟩

/-- The empty initial registry state. -/
def s0 : St := ⟨[], 0, 0⟩

/-- An initial state in which the scratch blob is already present. -/
def sPresent : St := ⟨[ScratchDescriptor.digest], 0, 0⟩

/-- Matrix entry 1 of GenerateOCIArtifacts (teleport-like: real config, real
layers, layercount 3). -/
def teleOpts : artifactConstructOptions := ⟨true, false, false, 3, true, true, false⟩

/-- Matrix entry 3 of GenerateOCIArtifacts (scratch config, one non-scratch
layer). -/
def opts3 : artifactConstructOptions := ⟨true, true, false, 1, true, true, false⟩

/-- Matrix entry 4 of GenerateOCIArtifacts (real config, scratch layers). -/
def opts4 : artifactConstructOptions := ⟨false, false, true, 1, true, true, false⟩

/-- A stand-in subject descriptor. -/
def subj0 : Descriptor := ⟨mediaTypeImageManifest, digestFromBytes "subj", 4⟩

def getOk : Except Err Descriptor → Descriptor
  | .ok d => d
  | .error _ => emptyDescriptor

/-- The manifest descriptor of the subject image pushed by
GenerateOCIArtifacts under env0 from the empty state. -/
def subjDesc0 : Descriptor :=
  getOk (pushOCIImage env0 s0 "repo" "oci-subject" ociConfigBytes 2).2.2

/-- A bearer-mode transport with credentials. -/
def bearerT : Transport := ⟨.bearerAuth, "user", "pass"⟩

/-- The spec challenge header. -/
def challenge1 : String :=
  "Bearer realm=\"https://x/token\",service=\"svc\",scope=\"repo:read\""

def regReq1 : RegistryRequest := ⟨"GET", "https://reg/v2/", false, "", ""⟩

/-- A well-behaved round-tripper double: 200 on the authorized retry, the
token on the realm URL, and 401 with the challenge otherwise. -/
def tripper1 : Tripper := fun r =>
  if r.authorization = some "Bearer tok123" then .ok ⟨200, "", .obj none⟩
  else if r.url = "https://x/token" then .ok ⟨200, "", .obj (some "tok123")⟩
  else .ok ⟨401, challenge1, .obj none⟩

/-- A double answering every request with 200 and a JSON object without an
access_token field. -/
def tripper200 : Tripper := fun _ => .ok ⟨200, "", .obj none⟩

end Fixtures

namespace Check

open Reg

/-! Generic lemmas about the checkers and uploadBytes. -/

theorem accDones_append (a b : List Event) (ds : List Digest) :
    accDones (a ++ b) ds = accDones b (accDones a ds) := by
  induction a generalizing ds with
  | nil => rfl
  | cons e a ih => cases e <;> simp [accDones, ih]

theorem mem_accDones (evs : List Event) (ds : List Digest) (x : Digest)
    (h : x ∈ ds) : x ∈ accDones evs ds := by
  induction evs generalizing ds with
  | nil => exact h
  | cons e evs ih =>
    cases e with
    | done d => exact ih (d.digest :: ds) (List.mem_cons_of_mem _ h)
    | call d p => exact ih ds h
    | transfer d => exact ih ds h
    | failed d er => exact ih ds h

theorem done_mem_accDones (evs : List Event) (ds : List Digest) (d : Descriptor)
    (h : Event.done d ∈ evs) : d.digest ∈ accDones evs ds := by
  induction evs generalizing ds with
  | nil => cases h
  | cons e evs ih =>
    rcases List.mem_cons.mp h with h1 | h2
    · subst h1
      exact mem_accDones evs (d.digest :: ds) d.digest (List.mem_cons_self _ _)
    · cases e with
      | done d2 => exact ih (d2.digest :: ds) h2
      | call d2 p => exact ih ds h2
      | transfer d2 => exact ih ds h2
      | failed d2 er => exact ih ds h2

/-- Ordering under a smaller reference map follows from ordering under a
larger one. -/
theorem orderedFrom_mono (R1 R2 : Payload → List Descriptor)
    (hsub : ∀ p, ∀ r ∈ R1 p, r ∈ R2 p) (evs : List Event) :
    ∀ ds, orderedFrom R2 evs ds = true → orderedFrom R1 evs ds = true := by
  induction evs with
  | nil => intro ds h; rfl
  | cons e evs ih =>
    intro ds h
    cases e with
    | call d p =>
      rw [orderedFrom] at h ⊢
      simp only [Bool.and_eq_true, List.all_eq_true] at h ⊢
      exact ⟨fun r hr => h.1 r (hsub p r hr), ih ds h.2⟩
    | done d => exact ih (d.digest :: ds) h
    | transfer d => exact ih ds h
    | failed d er => exact ih ds h

/-- The amended reference set is contained in the full one. -/
theorem refsAmended_subset (p : Payload) :
    ∀ r ∈ refsAmended p, r ∈ refsFull p := by
  intro r hr
  cases p with
  | blob b => cases hr
  | manifestP m mb =>
    rcases hs : m.subject with _ | sd
    · simp only [refsAmended, hs] at hr
      simp only [refsFull, hs, List.append_nil]
      exact hr
    · simp only [refsAmended, hs] at hr
      cases hr
  | indexP x xb => exact hr

theorem orderedFrom_append (R : Payload → List Descriptor) (a b : List Event)
    (ds : List Digest) :
    orderedFrom R (a ++ b) ds
      = (orderedFrom R a ds && orderedFrom R b (accDones a ds)) := by
  induction a generalizing ds with
  | nil => simp [orderedFrom, accDones]
  | cons e a ih =>
    cases e <;> simp [orderedFrom, accDones, ih, Bool.and_assoc]

theorem noFailB_append (a b : List Event) :
    noFailB (a ++ b) = (noFailB a && noFailB b) := by
  simp [noFailB, List.all_append]

theorem descsMatch_append (a b : List Event) :
    descsMatch (a ++ b) = (descsMatch a && descsMatch b) := by
  simp [descsMatch, List.all_append]

theorem stopsAtFirst_append (a b : List Event) (e : Err)
    (ha : noFailB a = true) (hb : stopsAtFirst b e) :
    stopsAtFirst (a ++ b) e := by
  rcases hb with ⟨pre, d, p, hsplit, hpre⟩
  refine ⟨a ++ pre, d, p, ?_, ?_⟩
  · rw [hsplit, List.append_assoc]
  · rw [noFailB_append, ha, hpre]; rfl

theorem uploadBytes_cases (env : Env) (s : St) (d : Descriptor) (p : Payload) :
    ((uploadBytes env s d p).2.1 = [.call d p, .done d]
        ∧ (uploadBytes env s d p).2.2 = none)
  ∨ ((uploadBytes env s d p).2.1 = [.call d p, .transfer d, .done d]
        ∧ (uploadBytes env s d p).2.2 = none)
  ∨ (∃ e, (uploadBytes env s d p).2.1 = [.call d p, .failed d e]
        ∧ (uploadBytes env s d p).2.2 = some e) := by
  unfold uploadBytes
  split_ifs <;> simp

theorem orderedFrom_uploadBytes (R : Payload → List Descriptor) (env : Env)
    (s : St) (d : Descriptor) (p : Payload) (ds : List Digest)
    (hR : R p = []) :
    orderedFrom R (uploadBytes env s d p).2.1 ds = true := by
  rcases uploadBytes_cases env s d p with ⟨h, _⟩ | ⟨h, _⟩ | ⟨e, h, _⟩ <;>
    rw [h] <;> simp [orderedFrom, hR]

theorem orderedFrom_uploadBytes_refs (R : Payload → List Descriptor) (env : Env)
    (s : St) (d : Descriptor) (p : Payload) (ds : List Digest)
    (h : ∀ r ∈ R p, r.digest ∈ ds) :
    orderedFrom R (uploadBytes env s d p).2.1 ds = true := by
  rcases uploadBytes_cases env s d p with ⟨h1, _⟩ | ⟨h1, _⟩ | ⟨e, h1, _⟩ <;>
    rw [h1] <;>
    simp only [orderedFrom, Bool.and_eq_true, List.all_eq_true,
      decide_eq_true_eq] <;>
    exact ⟨h, trivial⟩

theorem uploadBytes_ok_done (env : Env) (s : St) (d : Descriptor) (p : Payload)
    (h : (uploadBytes env s d p).2.2 = none) :
    Event.done d ∈ (uploadBytes env s d p).2.1 := by
  rcases uploadBytes_cases env s d p with ⟨h1, _⟩ | ⟨h1, _⟩ | ⟨e, h1, h2⟩
  · rw [h1]; simp
  · rw [h1]; simp
  · rw [h2] at h; cases h

theorem descsMatch_uploadBytes (env : Env) (s : St) (d : Descriptor) (p : Payload)
    (hd : d.digest = digestFromBytes p.data) (hs : d.size = p.data.length) :
    descsMatch (uploadBytes env s d p).2.1 = true := by
  rcases uploadBytes_cases env s d p with ⟨h, _⟩ | ⟨h, _⟩ | ⟨e, h, _⟩ <;>
    rw [h] <;> simp [descsMatch, hd, hs]

theorem noFailB_uploadBytes_ok (env : Env) (s : St) (d : Descriptor) (p : Payload)
    (h : (uploadBytes env s d p).2.2 = none) :
    noFailB (uploadBytes env s d p).2.1 = true := by
  rcases uploadBytes_cases env s d p with ⟨h1, _⟩ | ⟨h1, _⟩ | ⟨e, h1, h2⟩
  · rw [h1]; rfl
  · rw [h1]; rfl
  · rw [h2] at h; cases h

theorem uploadBytes_head (env : Env) (s : St) (d : Descriptor) (p : Payload) :
    ∃ tail, (uploadBytes env s d p).2.1 = .call d p :: tail := by
  rcases uploadBytes_cases env s d p with ⟨h1, _⟩ | ⟨h1, _⟩ | ⟨e, h1, _⟩ <;>
    exact ⟨_, h1⟩

theorem manifestConfigsOf_append (a b : List Event) :
    manifestConfigsOf (a ++ b) = manifestConfigsOf a ++ manifestConfigsOf b := by
  simp [manifestConfigsOf, List.filterMap_append]

theorem manifestConfigsOf_uploadBytes_blob (env : Env) (s : St) (d : Descriptor)
    (b : GoBytes) :
    manifestConfigsOf (uploadBytes env s d (.blob b)).2.1 = [] := by
  rcases uploadBytes_cases env s d (.blob b) with ⟨h1, _⟩ | ⟨h1, _⟩ | ⟨e, h1, _⟩ <;>
    rw [h1] <;> rfl

theorem manifestConfigsOf_uploadBytes_man (env : Env) (s : St) (d : Descriptor)
    (m : Manifest) (mb : GoBytes) :
    manifestConfigsOf (uploadBytes env s d (.manifestP m mb)).2.1 = [m.config] := by
  rcases uploadBytes_cases env s d (.manifestP m mb) with ⟨h1, _⟩ | ⟨h1, _⟩ | ⟨e, h1, _⟩ <;>
    rw [h1] <;> rfl

/-- uploadBytes when the capability reports the content already present. -/
theorem uploadBytes_exists_skip (env : Env) (s : St) (d : Descriptor) (p : Payload)
    (h : d.digest ∈ s.present) :
    uploadBytes env s d p
      = ({ s with callIdx := s.callIdx + 1 }, [.call d p, .done d], none) := by
  simp only [uploadBytes]
  rw [if_pos h]

/-- A successful uploadBytes leaves the digest present. -/
theorem uploadBytes_ok_present (env : Env) (s : St) (d : Descriptor) (p : Payload)
    (h : (uploadBytes env s d p).2.2 = none) :
    d.digest ∈ (uploadBytes env s d p).1.present := by
  simp only [uploadBytes] at h ⊢
  split_ifs at h ⊢ with h1 h2 h3
  · exact h1
  · exact List.mem_cons_self _ _

theorem uploadBytes_err_stops (env : Env) (s : St) (d : Descriptor) (p : Payload)
    (e : Err) (h : (uploadBytes env s d p).2.2 = some e) :
    stopsAtFirst (uploadBytes env s d p).2.1 e := by
  rcases uploadBytes_cases env s d p with ⟨h1, h2⟩ | ⟨h1, h2⟩ | ⟨e2, h1, h2⟩
  · rw [h2] at h; cases h
  · rw [h2] at h; cases h
  · rw [h2] at h
    cases h
    exact ⟨[], d, p, h1, rfl⟩

end Check

namespace ImageGen

open Reg Check

/-- Bundled trace facts about the image layer loop: its trace is
reference-free for any refs map that ignores blobs, its descriptors match
their payload bytes, a successful run has no failures and completes the
upload of every returned descriptor, and a failed run stops at its first
failure. -/
theorem uploadImageLayers_spec (R : Payload → List Descriptor)
    (hR : ∀ b, R (.blob b) = []) (n : Nat) :
    ∀ (env : Env) (s : St) (tag : String) (i : Nat),
      (∀ ds, orderedFrom R (uploadImageLayers env s tag i n).2.1 ds = true)
    ∧ descsMatch (uploadImageLayers env s tag i n).2.1 = true
    ∧ (∀ descs, (uploadImageLayers env s tag i n).2.2 = .ok descs →
          noFailB (uploadImageLayers env s tag i n).2.1 = true
        ∧ ∀ ds, ∀ d ∈ descs, d.digest ∈ accDones (uploadImageLayers env s tag i n).2.1 ds)
    ∧ (∀ e, (uploadImageLayers env s tag i n).2.2 = .error e →
          stopsAtFirst (uploadImageLayers env s tag i n).2.1 e) := by
  induction n with
  | zero =>
    intro env s tag i
    refine ⟨fun ds => rfl, rfl, ?_, ?_⟩
    · intro descs h
      cases h
      exact ⟨rfl, fun ds d hd => absurd hd (List.not_mem_nil d)⟩
    · intro e h; cases h
  | succ m ih =>
    intro env s tag i
    simp only [uploadImageLayers]
    set s0 : St := { s with clock := s.clock + 1 } with hs0
    set lb : GoBytes := layerBytesOf tag i (env.time s.clock) with hlb
    set ld : Descriptor := layerDescOf lb with hld
    rcases hu : uploadBytes env s0 ld (.blob lb) with ⟨s1, e1, r1⟩
    have he1 : (uploadBytes env s0 ld (.blob lb)).2.1 = e1 := by rw [hu]
    rcases r1 with _ | e
    · -- upload succeeded
      have hok : (uploadBytes env s0 ld (.blob lb)).2.2 = none := by rw [hu]
      dsimp only
      rcases hr : uploadImageLayers env s1 tag (i + 1) m with ⟨s2, e2, r2⟩
      have he2 : (uploadImageLayers env s1 tag (i + 1) m).2.1 = e2 := by rw [hr]
      rcases ih env s1 tag (i + 1) with ⟨iho, ihd, ihok, iherr⟩
      rw [hr] at he2 iho ihd ihok iherr
      rcases r2 with e | rest
      · -- recursive call failed
        dsimp only
        refine ⟨?_, ?_, ?_, ?_⟩
        · intro ds
          rw [orderedFrom_append]
          have h1 := orderedFrom_uploadBytes R env s0 ld (.blob lb) ds (hR lb)
          rw [he1] at h1
          rw [h1, iho]
          rfl
        · rw [descsMatch_append]
          have h1 := descsMatch_uploadBytes env s0 ld (.blob lb) rfl rfl
          rw [he1] at h1
          rw [h1, ihd]
          rfl
        · intro descs h; cases h
        · intro e3 h
          cases h
          have h1 := noFailB_uploadBytes_ok env s0 ld (.blob lb) hok
          rw [he1] at h1
          exact stopsAtFirst_append e1 e2 e h1 (iherr e rfl)
      · -- recursive call succeeded
        dsimp only
        refine ⟨?_, ?_, ?_, ?_⟩
        · intro ds
          rw [orderedFrom_append]
          have h1 := orderedFrom_uploadBytes R env s0 ld (.blob lb) ds (hR lb)
          rw [he1] at h1
          rw [h1, iho]
          rfl
        · rw [descsMatch_append]
          have h1 := descsMatch_uploadBytes env s0 ld (.blob lb) rfl rfl
          rw [he1] at h1
          rw [h1, ihd]
          rfl
        · intro descs h
          cases h
          rcases ihok rest rfl with ⟨ihnf, ihdones⟩
          constructor
          · rw [noFailB_append]
            have h1 := noFailB_uploadBytes_ok env s0 ld (.blob lb) hok
            rw [he1] at h1
            rw [h1, ihnf]
            rfl
          · intro ds d hd
            rw [accDones_append]
            rcases List.mem_cons.mp hd with h1 | h1
            · subst h1
              have hdone := uploadBytes_ok_done env s0 ld (.blob lb) hok
              rw [he1] at hdone
              exact mem_accDones e2 _ _ (done_mem_accDones e1 ds ld hdone)
            · exact ihdones (accDones e1 ds) d h1
        · intro e h; cases h
    · -- upload failed
      have herr : (uploadBytes env s0 ld (.blob lb)).2.2 = some e := by rw [hu]
      dsimp only
      refine ⟨?_, ?_, ?_, ?_⟩
      · intro ds
        have h1 := orderedFrom_uploadBytes R env s0 ld (.blob lb) ds (hR lb)
        rw [he1] at h1
        exact h1
      · have h1 := descsMatch_uploadBytes env s0 ld (.blob lb) rfl rfl
        rw [he1] at h1
        exact h1
      · intro descs h; cases h
      · intro e3 h
        cases h
        have h1 := uploadBytes_err_stops env s0 ld (.blob lb) e herr
        rw [he1] at h1
        exact h1

theorem configDescOf_ne_scratch (b : GoBytes) : configDescOf b ≠ ScratchDescriptor := by
  intro h
  have h2 : imagegenConfigMediaType = mediaTypeScratch := congrArg Descriptor.mediaType h
  exact absurd h2 (by decide)

/-- Bundled trace facts about pushOCIImage: its trace respects the amended
reference-before-manifest ordering from any initial done-set, its
descriptors match their payload bytes, a successful push has no failures and
completes the upload of the returned manifest descriptor, and a failed push
stops at its first failure. -/
theorem pushOCIImage_spec (env : Env) (s : St) (repo tag : String)
    (configB : GoBytes) (layercount : Nat) :
      (∀ ds, orderedFrom refsFull (pushOCIImage env s repo tag configB layercount).2.1 ds = true)
    ∧ descsMatch (pushOCIImage env s repo tag configB layercount).2.1 = true
    ∧ (∀ d, (pushOCIImage env s repo tag configB layercount).2.2 = .ok d →
          noFailB (pushOCIImage env s repo tag configB layercount).2.1 = true
        ∧ ∀ ds, d.digest ∈ accDones (pushOCIImage env s repo tag configB layercount).2.1 ds)
    ∧ (∀ e, (pushOCIImage env s repo tag configB layercount).2.2 = .error e →
          stopsAtFirst (pushOCIImage env s repo tag configB layercount).2.1 e) := by
  simp only [pushOCIImage]
  set cfgd : Descriptor := configDescOf configB with hcfgd
  rcases hu : uploadBytes env s cfgd (.blob configB) with ⟨s1, e1, r1⟩
  have he1 : (uploadBytes env s cfgd (.blob configB)).2.1 = e1 := by rw [hu]
  rcases r1 with _ | e
  · -- config upload succeeded
    have hok : (uploadBytes env s cfgd (.blob configB)).2.2 = none := by rw [hu]
    dsimp only
    rcases hL : uploadImageLayers env s1 tag 0 layercount with ⟨s2, e2, r2⟩
    rcases uploadImageLayers_spec refsFull (fun _ => rfl) layercount env s1 tag 0 with
      ⟨iho, ihd, ihok, iherr⟩
    rw [hL] at iho ihd ihok iherr
    dsimp only at iho ihd ihok iherr
    rcases r2 with eL | layerDescs
    · -- layer loop failed
      dsimp only
      refine ⟨?_, ?_, ?_, ?_⟩
      · intro ds
        rw [orderedFrom_append]
        have h1 := orderedFrom_uploadBytes refsFull env s cfgd (.blob configB) ds rfl
        rw [he1] at h1
        rw [h1, iho]
        rfl
      · rw [descsMatch_append]
        have h1 := descsMatch_uploadBytes env s cfgd (.blob configB) rfl rfl
        rw [he1] at h1
        rw [h1, ihd]
        rfl
      · intro d h; cases h
      · intro e3 h
        cases h
        have h1 := noFailB_uploadBytes_ok env s cfgd (.blob configB) hok
        rw [he1] at h1
        exact stopsAtFirst_append e1 e2 eL h1 (iherr eL rfl)
    · -- layer loop succeeded: manifest step
      dsimp only
      set man : Manifest := ⟨2, mediaTypeImageManifest, cfgd, layerDescs, none, none⟩ with hman
      set mb : GoBytes := jsonManifest man with hmb
      set md : Descriptor := ⟨mediaTypeImageManifest, digestFromBytes mb, mb.length⟩ with hmd
      rcases hm : uploadBytes env s2 md (.manifestP man mb) with ⟨s3, e3, r3⟩
      have he3 : (uploadBytes env s2 md (.manifestP man mb)).2.1 = e3 := by rw [hm]
      have hrefs : ∀ ds2, (∀ r ∈ refsFull (.manifestP man mb),
          r.digest ∈ accDones (e1 ++ e2) ds2) := by
        intro ds2 r hr
        have hrf : refsFull (.manifestP man mb) = cfgd :: layerDescs := by
          have h0 : man.subject = none := rfl
          have hc : man.config = cfgd := rfl
          have hl : man.layers = layerDescs := rfl
          simp [refsFull, h0, hc, hl]
        rw [hrf] at hr
        rw [accDones_append]
        rcases List.mem_cons.mp hr with h1 | h1
        · have h3 : r = cfgd := h1
          subst h3
          have hdone := uploadBytes_ok_done env s cfgd (.blob configB) hok
          rw [he1] at hdone
          exact mem_accDones e2 _ _ (done_mem_accDones e1 ds2 cfgd hdone)
        · exact (ihok layerDescs rfl).2 (accDones e1 ds2) r h1
      have hnf12 : noFailB (e1 ++ e2) = true := by
        rw [noFailB_append]
        have h1 := noFailB_uploadBytes_ok env s cfgd (.blob configB) hok
        rw [he1] at h1
        rw [h1, (ihok layerDescs rfl).1]
        rfl
      have hord12 : ∀ ds, orderedFrom refsFull (e1 ++ e2) ds = true := by
        intro ds
        rw [orderedFrom_append]
        have h1 := orderedFrom_uploadBytes refsFull env s cfgd (.blob configB) ds rfl
        rw [he1] at h1
        rw [h1, iho]
        rfl
      have hdm12 : descsMatch (e1 ++ e2) = true := by
        rw [descsMatch_append]
        have h1 := descsMatch_uploadBytes env s cfgd (.blob configB) rfl rfl
        rw [he1] at h1
        rw [h1, ihd]
        rfl
      rcases r3 with _ | e
      · -- manifest upload succeeded
        have hok3 : (uploadBytes env s2 md (.manifestP man mb)).2.2 = none := by rw [hm]
        dsimp only
        refine ⟨?_, ?_, ?_, ?_⟩
        · intro ds
          rw [orderedFrom_append, hord12 ds]
          have h1 := orderedFrom_uploadBytes_refs refsFull env s2 md (.manifestP man mb)
            (accDones (e1 ++ e2) ds) (hrefs ds)
          rw [he3] at h1
          rw [h1]
          rfl
        · rw [descsMatch_append, hdm12]
          have h1 := descsMatch_uploadBytes env s2 md (.manifestP man mb) rfl rfl
          rw [he3] at h1
          rw [h1]
          rfl
        · intro d h
          cases h
          constructor
          · rw [noFailB_append, hnf12]
            have h1 := noFailB_uploadBytes_ok env s2 md (.manifestP man mb) hok3
            rw [he3] at h1
            rw [h1]
            rfl
          · intro ds
            rw [accDones_append]
            have hdone := uploadBytes_ok_done env s2 md (.manifestP man mb) hok3
            rw [he3] at hdone
            exact done_mem_accDones e3 _ _ hdone
        · intro e3' h; cases h
      · -- manifest upload failed
        have herr3 : (uploadBytes env s2 md (.manifestP man mb)).2.2 = some e := by rw [hm]
        dsimp only
        refine ⟨?_, ?_, ?_, ?_⟩
        · intro ds
          rw [orderedFrom_append, hord12 ds]
          have h1 := orderedFrom_uploadBytes_refs refsFull env s2 md (.manifestP man mb)
            (accDones (e1 ++ e2) ds) (hrefs ds)
          rw [he3] at h1
          rw [h1]
          rfl
        · rw [descsMatch_append, hdm12]
          have h1 := descsMatch_uploadBytes env s2 md (.manifestP man mb) rfl rfl
          rw [he3] at h1
          rw [h1]
          rfl
        · intro d h; cases h
        · intro e4 h
          cases h
          have h1 := uploadBytes_err_stops env s2 md (.manifestP man mb) e herr3
          rw [he3] at h1
          exact stopsAtFirst_append (e1 ++ e2) e3 e hnf12 h1
  · -- config upload failed
    have herr : (uploadBytes env s cfgd (.blob configB)).2.2 = some e := by rw [hu]
    dsimp only
    refine ⟨?_, ?_, ?_, ?_⟩
    · intro ds
      have h1 := orderedFrom_uploadBytes refsFull env s cfgd (.blob configB) ds rfl
      rw [he1] at h1
      exact h1
    · have h1 := descsMatch_uploadBytes env s cfgd (.blob configB) rfl rfl
      rw [he1] at h1
      exact h1
    · intro d h; cases h
    · intro e3 h
      cases h
      have h1 := uploadBytes_err_stops env s cfgd (.blob configB) e herr
      rw [he1] at h1
      exact h1

/-- Bundled trace facts about the artifact layer loop: its trace is
reference-free for any refs map that ignores blobs (the only upload it ever
performs is the scratch blob at index 0 when the config was not scratch;
non-scratch layer descriptors are appended without any upload), its
descriptors match their payload bytes, a successful run has no failures,
and a failed run stops at its first failure. -/
theorem uploadArtifactLayers_spec (R : Payload → List Descriptor)
    (hR : ∀ b, R (.blob b) = []) (n : Nat) :
    ∀ (env : Env) (s : St) (tag : String) (opts : artifactConstructOptions) (i : Nat),
      (∀ ds, orderedFrom R (uploadArtifactLayers env s tag opts i n).2.1 ds = true)
    ∧ descsMatch (uploadArtifactLayers env s tag opts i n).2.1 = true
    ∧ (∀ descs, (uploadArtifactLayers env s tag opts i n).2.2 = .ok descs →
          noFailB (uploadArtifactLayers env s tag opts i n).2.1 = true)
    ∧ (∀ e, (uploadArtifactLayers env s tag opts i n).2.2 = .error e →
          stopsAtFirst (uploadArtifactLayers env s tag opts i n).2.1 e) := by
  induction n with
  | zero =>
    intro env s tag opts i
    refine ⟨fun ds => rfl, rfl, ?_, ?_⟩
    · intro descs h; exact rfl
    · intro e h; cases h
  | succ m ih =>
    intro env s tag opts i
    simp only [uploadArtifactLayers]
    split_ifs with hls hsc
    · -- scratch layers, scratch blob uploaded at i = 0
      rcases hu : uploadBytes env s ScratchDescriptor (.blob scratchData) with ⟨s1, e1, r1⟩
      have he1 : (uploadBytes env s ScratchDescriptor (.blob scratchData)).2.1 = e1 := by rw [hu]
      rcases r1 with _ | e
      · have hok : (uploadBytes env s ScratchDescriptor (.blob scratchData)).2.2 = none := by
          rw [hu]
        dsimp only
        rcases hr : uploadArtifactLayers env s1 tag opts (i + 1) m with ⟨s2, e2, r2⟩
        rcases ih env s1 tag opts (i + 1) with ⟨iho, ihd, ihok, iherr⟩
        rw [hr] at iho ihd ihok iherr
        dsimp only at iho ihd ihok iherr
        rcases r2 with e | rest
        · dsimp only
          refine ⟨?_, ?_, ?_, ?_⟩
          · intro ds
            rw [orderedFrom_append]
            have h1 := orderedFrom_uploadBytes R env s ScratchDescriptor (.blob scratchData)
              ds (hR scratchData)
            rw [he1] at h1
            rw [h1, iho]
            rfl
          · rw [descsMatch_append]
            have h1 := descsMatch_uploadBytes env s ScratchDescriptor (.blob scratchData) rfl rfl
            rw [he1] at h1
            rw [h1, ihd]
            rfl
          · intro descs h; cases h
          · intro e3 h
            cases h
            have h1 := noFailB_uploadBytes_ok env s ScratchDescriptor (.blob scratchData) hok
            rw [he1] at h1
            exact stopsAtFirst_append e1 e2 e h1 (iherr e rfl)
        · dsimp only
          refine ⟨?_, ?_, ?_, ?_⟩
          · intro ds
            rw [orderedFrom_append]
            have h1 := orderedFrom_uploadBytes R env s ScratchDescriptor (.blob scratchData)
              ds (hR scratchData)
            rw [he1] at h1
            rw [h1, iho]
            rfl
          · rw [descsMatch_append]
            have h1 := descsMatch_uploadBytes env s ScratchDescriptor (.blob scratchData) rfl rfl
            rw [he1] at h1
            rw [h1, ihd]
            rfl
          · intro descs h
            cases h
            rw [noFailB_append]
            have h1 := noFailB_uploadBytes_ok env s ScratchDescriptor (.blob scratchData) hok
            rw [he1] at h1
            rw [h1, ihok rest rfl]
            rfl
          · intro e h; cases h
      · have herr : (uploadBytes env s ScratchDescriptor (.blob scratchData)).2.2 = some e := by
          rw [hu]
        dsimp only
        refine ⟨?_, ?_, ?_, ?_⟩
        · intro ds
          have h1 := orderedFrom_uploadBytes R env s ScratchDescriptor (.blob scratchData)
            ds (hR scratchData)
          rw [he1] at h1
          exact h1
        · have h1 := descsMatch_uploadBytes env s ScratchDescriptor (.blob scratchData) rfl rfl
          rw [he1] at h1
          exact h1
        · intro descs h; cases h
        · intro e3 h
          cases h
          have h1 := uploadBytes_err_stops env s ScratchDescriptor (.blob scratchData) e herr
          rw [he1] at h1
          exact h1
    · -- scratch layers, scratch descriptor reused without upload
      rcases hr : uploadArtifactLayers env s tag opts (i + 1) m with ⟨s2, e2, r2⟩
      rcases ih env s tag opts (i + 1) with ⟨iho, ihd, ihok, iherr⟩
      rw [hr] at iho ihd ihok iherr
      dsimp only at iho ihd ihok iherr
      rcases r2 with e | rest
      · dsimp only
        refine ⟨iho, ihd, ?_, ?_⟩
        · intro descs h; cases h
        · intro e3 h
          cases h
          exact iherr e rfl
      · dsimp only
        refine ⟨iho, ihd, ?_, ?_⟩
        · intro descs h
          cases h
          exact ihok rest rfl
        · intro e h; cases h
    · -- non-scratch layer: the descriptor is appended without any upload
      rcases hr : uploadArtifactLayers env { s with clock := s.clock + 1 } tag opts (i + 1) m
        with ⟨s2, e2, r2⟩
      rcases ih env { s with clock := s.clock + 1 } tag opts (i + 1) with ⟨iho, ihd, ihok, iherr⟩
      rw [hr] at iho ihd ihok iherr
      dsimp only at iho ihd ihok iherr
      rcases r2 with e | rest
      · dsimp only
        refine ⟨iho, ihd, ?_, ?_⟩
        · intro descs h; cases h
        · intro e3 h
          cases h
          exact iherr e rfl
      · dsimp only
        refine ⟨iho, ihd, ?_, ?_⟩
        · intro descs h
          cases h
          exact ihok rest rfl
        · intro e h; cases h

/-- The artifact layer loop only uploads blobs: no manifest upload is issued
inside it. -/
theorem uploadArtifactLayers_manifestConfigs (n : Nat) :
    ∀ (env : Env) (s : St) (tag : String) (opts : artifactConstructOptions) (i : Nat),
    manifestConfigsOf (uploadArtifactLayers env s tag opts i n).2.1 = [] := by
  induction n with
  | zero => intro env s tag opts i; rfl
  | succ m ih =>
    intro env s tag opts i
    simp only [uploadArtifactLayers]
    split_ifs with hls hsc
    · rcases hu : uploadBytes env s ScratchDescriptor (.blob scratchData) with ⟨s1, e1, r1⟩
      have he1 : manifestConfigsOf e1 = [] := by
        have h1 := manifestConfigsOf_uploadBytes_blob env s ScratchDescriptor scratchData
        rw [hu] at h1
        exact h1
      rcases r1 with _ | e
      · dsimp only
        rcases hr : uploadArtifactLayers env s1 tag opts (i + 1) m with ⟨s2, e2, r2⟩
        have he2 : manifestConfigsOf e2 = [] := by
          have h1 := ih env s1 tag opts (i + 1)
          rw [hr] at h1
          exact h1
        rcases r2 with e | rest <;> dsimp only <;>
          rw [manifestConfigsOf_append, he1, he2] <;> rfl
      · exact he1
    · rcases hr : uploadArtifactLayers env s tag opts (i + 1) m with ⟨s2, e2, r2⟩
      have he2 : manifestConfigsOf e2 = [] := by
        have h1 := ih env s tag opts (i + 1)
        rw [hr] at h1
        exact h1
      rcases r2 with e | rest <;> exact he2
    · rcases hr : uploadArtifactLayers env { s with clock := s.clock + 1 } tag opts (i + 1) m
        with ⟨s2, e2, r2⟩
      have he2 : manifestConfigsOf e2 = [] := by
        have h1 := ih env { s with clock := s.clock + 1 } tag opts (i + 1)
        rw [hr] at h1
        exact h1
      rcases r2 with e | rest <;> exact he2

/-- Bundled trace facts about pushOCIArtifact: the amended ordering holds
from any initial done-set (its manifest always carries a subject pointer,
so the amended reference map places no obligation on it), descriptors match
their payload bytes, the first event is the config upload call dictated by
configIsScratch, and every manifest whose upload is issued carries the
scratch descriptor as its config. -/
theorem pushOCIArtifact_spec (env : Env) (s : St) (subject : Descriptor)
    (repo tag : String) (opts : artifactConstructOptions) :
      (∀ ds, orderedFrom refsAmended (pushOCIArtifact env s subject repo tag opts).2.1 ds = true)
    ∧ descsMatch (pushOCIArtifact env s subject repo tag opts).2.1 = true
    ∧ (∃ tail, (pushOCIArtifact env s subject repo tag opts).2.1 =
        .call (if opts.configIsScratch then ScratchDescriptor else configDescOf ociConfigBytes)
          (.blob (if opts.configIsScratch then scratchData else ociConfigBytes)) :: tail)
    ∧ (∀ c ∈ manifestConfigsOf (pushOCIArtifact env s subject repo tag opts).2.1,
        c = ScratchDescriptor) := by
  simp only [pushOCIArtifact]
  generalize (if opts.includesArtifactType = true then some imagegenArtifactType
    else (none : Option String)) = atype
  split_ifs with hcs
  · -- configIsScratch: the config upload is the scratch blob
    rcases hu : uploadBytes env s ScratchDescriptor (.blob scratchData) with ⟨s1, e1, r1⟩
    have he1 : (uploadBytes env s ScratchDescriptor (.blob scratchData)).2.1 = e1 := by rw [hu]
    have hmc1 : manifestConfigsOf e1 = [] := by
      have h1 := manifestConfigsOf_uploadBytes_blob env s ScratchDescriptor scratchData
      rw [he1] at h1
      exact h1
    have hhd1 : ∃ tail, e1 = .call ScratchDescriptor (.blob scratchData) :: tail := by
      rcases uploadBytes_head env s ScratchDescriptor (.blob scratchData) with ⟨tail, h1⟩
      rw [he1] at h1
      exact ⟨tail, h1⟩
    have hdm1 : descsMatch e1 = true := by
      have h1 := descsMatch_uploadBytes env s ScratchDescriptor (.blob scratchData) rfl rfl
      rw [he1] at h1
      exact h1
    have ho1 : ∀ ds, orderedFrom refsAmended e1 ds = true := by
      intro ds
      have h1 := orderedFrom_uploadBytes refsAmended env s ScratchDescriptor (.blob scratchData)
        ds rfl
      rw [he1] at h1
      exact h1
    rcases r1 with _ | e
    · -- config upload succeeded
      dsimp only
      rcases hL : uploadArtifactLayers env s1 tag opts 0 opts.layercount with ⟨s2, e2, r2⟩
      rcases uploadArtifactLayers_spec refsAmended (fun _ => rfl) opts.layercount env s1 tag
        opts 0 with ⟨iho, ihd, _, _⟩
      have hmc2 : manifestConfigsOf e2 = [] := by
        have h1 := uploadArtifactLayers_manifestConfigs opts.layercount env s1 tag opts 0
        rw [hL] at h1
        exact h1
      rw [hL] at iho ihd
      dsimp only at iho ihd
      rcases r2 with e | layerDescs
      · -- layer loop failed
        dsimp only
        refine ⟨?_, ?_, ?_, ?_⟩
        · intro ds
          rw [orderedFrom_append, ho1 ds, iho]
          rfl
        · rw [descsMatch_append, hdm1, ihd]
          rfl
        · rcases hhd1 with ⟨tail, h1⟩
          exact ⟨tail ++ e2, by rw [h1]; rfl⟩
        · intro c hc
          rw [manifestConfigsOf_append, hmc1, hmc2] at hc
          cases hc
      · -- layer loop succeeded: manifest step
        dsimp only
        set man : Manifest :=
          ⟨2, mediaTypeImageManifest, ScratchDescriptor, layerDescs, some subject, atype⟩
          with hman
        set mb : GoBytes := jsonManifest man with hmb
        set md : Descriptor := ⟨mediaTypeImageManifest, digestFromBytes mb, mb.length⟩ with hmd
        rcases hm : uploadBytes env s2 md (.manifestP man mb) with ⟨s3, e3, r3⟩
        have he3 : (uploadBytes env s2 md (.manifestP man mb)).2.1 = e3 := by rw [hm]
        have hmc3 : manifestConfigsOf e3 = [man.config] := by
          have h1 := manifestConfigsOf_uploadBytes_man env s2 md man mb
          rw [he3] at h1
          exact h1
        have hdm3 : descsMatch e3 = true := by
          have h1 := descsMatch_uploadBytes env s2 md (.manifestP man mb) rfl rfl
          rw [he3] at h1
          exact h1
        have ho3 : ∀ ds2, orderedFrom refsAmended e3 ds2 = true := by
          intro ds2
          have h1 := orderedFrom_uploadBytes refsAmended env s2 md (.manifestP man mb) ds2 rfl
          rw [he3] at h1
          exact h1
        rcases r3 with _ | e <;> dsimp only <;> refine ⟨?_, ?_, ?_, ?_⟩
        · intro ds
          rw [orderedFrom_append, orderedFrom_append, ho1 ds, iho, ho3 _]
          rfl
        · rw [descsMatch_append, descsMatch_append, hdm1, ihd, hdm3]
          rfl
        · rcases hhd1 with ⟨tail, h1⟩
          exact ⟨tail ++ e2 ++ e3, by rw [h1]; simp⟩
        · intro c hc
          rw [manifestConfigsOf_append, manifestConfigsOf_append, hmc1, hmc2, hmc3] at hc
          rcases List.mem_singleton.mp hc with rfl
          rfl
        · intro ds
          rw [orderedFrom_append, orderedFrom_append, ho1 ds, iho, ho3 _]
          rfl
        · rw [descsMatch_append, descsMatch_append, hdm1, ihd, hdm3]
          rfl
        · rcases hhd1 with ⟨tail, h1⟩
          exact ⟨tail ++ e2 ++ e3, by rw [h1]; simp⟩
        · intro c hc
          rw [manifestConfigsOf_append, manifestConfigsOf_append, hmc1, hmc2, hmc3] at hc
          rcases List.mem_singleton.mp hc with rfl
          rfl
    · -- config upload failed
      dsimp only
      refine ⟨ho1, hdm1, hhd1, ?_⟩
      intro c hc
      rw [hmc1] at hc
      cases hc
  · -- real config: the config upload is the marshalled ociConfig
    rcases hu : uploadBytes env s (configDescOf ociConfigBytes) (.blob ociConfigBytes)
      with ⟨s1, e1, r1⟩
    have he1 : (uploadBytes env s (configDescOf ociConfigBytes) (.blob ociConfigBytes)).2.1 = e1 := by
      rw [hu]
    have hmc1 : manifestConfigsOf e1 = [] := by
      have h1 := manifestConfigsOf_uploadBytes_blob env s (configDescOf ociConfigBytes)
        ociConfigBytes
      rw [he1] at h1
      exact h1
    have hhd1 : ∃ tail, e1 = .call (configDescOf ociConfigBytes) (.blob ociConfigBytes) :: tail := by
      rcases uploadBytes_head env s (configDescOf ociConfigBytes) (.blob ociConfigBytes)
        with ⟨tail, h1⟩
      rw [he1] at h1
      exact ⟨tail, h1⟩
    have hdm1 : descsMatch e1 = true := by
      have h1 := descsMatch_uploadBytes env s (configDescOf ociConfigBytes)
        (.blob ociConfigBytes) rfl rfl
      rw [he1] at h1
      exact h1
    have ho1 : ∀ ds, orderedFrom refsAmended e1 ds = true := by
      intro ds
      have h1 := orderedFrom_uploadBytes refsAmended env s (configDescOf ociConfigBytes)
        (.blob ociConfigBytes) ds rfl
      rw [he1] at h1
      exact h1
    rcases r1 with _ | e
    · -- config upload succeeded
      dsimp only
      rcases hL : uploadArtifactLayers env s1 tag opts 0 opts.layercount with ⟨s2, e2, r2⟩
      rcases uploadArtifactLayers_spec refsAmended (fun _ => rfl) opts.layercount env s1 tag
        opts 0 with ⟨iho, ihd, _, _⟩
      have hmc2 : manifestConfigsOf e2 = [] := by
        have h1 := uploadArtifactLayers_manifestConfigs opts.layercount env s1 tag opts 0
        rw [hL] at h1
        exact h1
      rw [hL] at iho ihd
      dsimp only at iho ihd
      rcases r2 with e | layerDescs
      · dsimp only
        refine ⟨?_, ?_, ?_, ?_⟩
        · intro ds
          rw [orderedFrom_append, ho1 ds, iho]
          rfl
        · rw [descsMatch_append, hdm1, ihd]
          rfl
        · rcases hhd1 with ⟨tail, h1⟩
          exact ⟨tail ++ e2, by rw [h1]; rfl⟩
        · intro c hc
          rw [manifestConfigsOf_append, hmc1, hmc2] at hc
          cases hc
      · dsimp only
        set man : Manifest :=
          ⟨2, mediaTypeImageManifest, ScratchDescriptor, layerDescs, some subject, atype⟩
          with hman
        set mb : GoBytes := jsonManifest man with hmb
        set md : Descriptor := ⟨mediaTypeImageManifest, digestFromBytes mb, mb.length⟩ with hmd
        rcases hm : uploadBytes env s2 md (.manifestP man mb) with ⟨s3, e3, r3⟩
        have he3 : (uploadBytes env s2 md (.manifestP man mb)).2.1 = e3 := by rw [hm]
        have hmc3 : manifestConfigsOf e3 = [man.config] := by
          have h1 := manifestConfigsOf_uploadBytes_man env s2 md man mb
          rw [he3] at h1
          exact h1
        have hdm3 : descsMatch e3 = true := by
          have h1 := descsMatch_uploadBytes env s2 md (.manifestP man mb) rfl rfl
          rw [he3] at h1
          exact h1
        have ho3 : ∀ ds2, orderedFrom refsAmended e3 ds2 = true := by
          intro ds2
          have h1 := orderedFrom_uploadBytes refsAmended env s2 md (.manifestP man mb) ds2 rfl
          rw [he3] at h1
          exact h1
        rcases r3 with _ | e <;> dsimp only <;> refine ⟨?_, ?_, ?_, ?_⟩
        · intro ds
          rw [orderedFrom_append, orderedFrom_append, ho1 ds, iho, ho3 _]
          rfl
        · rw [descsMatch_append, descsMatch_append, hdm1, ihd, hdm3]
          rfl
        · rcases hhd1 with ⟨tail, h1⟩
          exact ⟨tail ++ e2 ++ e3, by rw [h1]; simp⟩
        · intro c hc
          rw [manifestConfigsOf_append, manifestConfigsOf_append, hmc1, hmc2, hmc3] at hc
          rcases List.mem_singleton.mp hc with rfl
          rfl
        · intro ds
          rw [orderedFrom_append, orderedFrom_append, ho1 ds, iho, ho3 _]
          rfl
        · rw [descsMatch_append, descsMatch_append, hdm1, ihd, hdm3]
          rfl
        · rcases hhd1 with ⟨tail, h1⟩
          exact ⟨tail ++ e2 ++ e3, by rw [h1]; simp⟩
        · intro c hc
          rw [manifestConfigsOf_append, manifestConfigsOf_append, hmc1, hmc2, hmc3] at hc
          rcases List.mem_singleton.mp hc with rfl
          rfl
    · -- config upload failed
      dsimp only
      refine ⟨ho1, hdm1, hhd1, ?_⟩
      intro c hc
      rw [hmc1] at hc
      cases hc

/-- Bundled trace facts about the image loop of GenerateOCIIndex. -/
theorem pushIndexImages_spec (n : Nat) :
    ∀ (env : Env) (s : St) (repo tag : String) (i : Nat),
      (∀ ds, orderedFrom refsFull (pushIndexImages env s repo tag i n).2.1 ds = true)
    ∧ descsMatch (pushIndexImages env s repo tag i n).2.1 = true
    ∧ (∀ descs, (pushIndexImages env s repo tag i n).2.2 = .ok descs →
          noFailB (pushIndexImages env s repo tag i n).2.1 = true
        ∧ ∀ ds, ∀ d ∈ descs, d.digest ∈ accDones (pushIndexImages env s repo tag i n).2.1 ds)
    ∧ (∀ e, (pushIndexImages env s repo tag i n).2.2 = .error e →
          stopsAtFirst (pushIndexImages env s repo tag i n).2.1 e) := by
  induction n with
  | zero =>
    intro env s repo tag i
    refine ⟨fun ds => rfl, rfl, ?_, ?_⟩
    · intro descs h
      cases h
      exact ⟨rfl, fun ds d hd => absurd hd (List.not_mem_nil d)⟩
    · intro e h; cases h
  | succ m ih =>
    intro env s repo tag i
    simp only [pushIndexImages]
    rcases hu : pushOCIImage env s repo (tag ++ "-oci-" ++ toString i) ociConfigBytes 2
      with ⟨s1, e1, r1⟩
    rcases pushOCIImage_spec env s repo (tag ++ "-oci-" ++ toString i) ociConfigBytes 2
      with ⟨po, pd, pok, perr⟩
    rw [hu] at po pd pok perr
    dsimp only at po pd pok perr
    rcases r1 with e | desc
    · -- image push failed
      dsimp only
      refine ⟨po, pd, ?_, ?_⟩
      · intro descs h; cases h
      · intro e3 h
        cases h
        exact perr e rfl
    · -- image push succeeded
      dsimp only
      rcases hr : pushIndexImages env s1 repo tag (i + 1) m with ⟨s2, e2, r2⟩
      rcases ih env s1 repo tag (i + 1) with ⟨iho, ihd, ihok, iherr⟩
      rw [hr] at iho ihd ihok iherr
      dsimp only at iho ihd ihok iherr
      rcases r2 with e | rest
      · dsimp only
        refine ⟨?_, ?_, ?_, ?_⟩
        · intro ds
          rw [orderedFrom_append, po ds, iho]
          rfl
        · rw [descsMatch_append, pd, ihd]
          rfl
        · intro descs h; cases h
        · intro e3 h
          cases h
          exact stopsAtFirst_append e1 e2 e (pok desc rfl).1 (iherr e rfl)
      · dsimp only
        refine ⟨?_, ?_, ?_, ?_⟩
        · intro ds
          rw [orderedFrom_append, po ds, iho]
          rfl
        · rw [descsMatch_append, pd, ihd]
          rfl
        · intro descs h
          cases h
          rcases ihok rest rfl with ⟨ihnf, ihdones⟩
          constructor
          · rw [noFailB_append, (pok desc rfl).1, ihnf]
            rfl
          · intro ds d hd
            rw [accDones_append]
            rcases List.mem_cons.mp hd with h1 | h1
            · subst h1
              exact mem_accDones e2 _ _ ((pok d rfl).2 ds)
            · exact ihdones (accDones e1 ds) d h1
        · intro e h; cases h

/-- Bundled trace facts about GenerateOCIIndex: amended ordering from any
initial done-set, descriptor/payload agreement, and first-error
propagation with immediate abort. -/
theorem GenerateOCIIndex_spec (env : Env) (s : St) (hasMediaType : Bool) :
      (∀ ds, orderedFrom refsFull (GenerateOCIIndex env s hasMediaType).2.1 ds = true)
    ∧ descsMatch (GenerateOCIIndex env s hasMediaType).2.1 = true
    ∧ (∀ e, (GenerateOCIIndex env s hasMediaType).2.2 = .error e →
          stopsAtFirst (GenerateOCIIndex env s hasMediaType).2.1 e) := by
  simp only [GenerateOCIIndex]
  set tag : String := toString (env.time (s.clock + 1)) with htag
  set s0 : St := { s with clock := s.clock + 2 } with hs0
  rcases hu : pushIndexImages env s0 "repo" tag 0 11 with ⟨s1, e1, r1⟩
  rcases pushIndexImages_spec 11 env s0 "repo" tag 0 with ⟨po, pd, pok, perr⟩
  rw [hu] at po pd pok perr
  dsimp only at po pd pok perr
  rcases r1 with e | manifests
  · -- some image push failed
    dsimp only
    exact ⟨po, pd, fun e3 h => by cases h; exact perr e rfl⟩
  · -- all images pushed: index step
    dsimp only
    set x : Index := ⟨2, if hasMediaType then some mediaTypeImageIndex else none, manifests⟩
      with hx
    set xb : GoBytes := jsonIndex x with hxb
    set xd : Descriptor := ⟨mediaTypeImageIndex, digestFromBytes xb, xb.length⟩ with hxd
    rcases hm : uploadBytes env s1 xd (.indexP x xb) with ⟨s2, e2, r2⟩
    have he2 : (uploadBytes env s1 xd (.indexP x xb)).2.1 = e2 := by rw [hm]
    have ho2 : ∀ ds, orderedFrom refsFull e2 (accDones e1 ds) = true := by
      intro ds
      have hrefs : ∀ r ∈ refsFull (.indexP x xb), r.digest ∈ accDones e1 ds := by
        intro r hr
        have hman : refsFull (.indexP x xb) = manifests := rfl
        rw [hman] at hr
        exact (pok manifests rfl).2 ds r hr
      have h1 := orderedFrom_uploadBytes_refs refsFull env s1 xd (.indexP x xb)
        (accDones e1 ds) hrefs
      rw [he2] at h1
      exact h1
    have hdm2 : descsMatch e2 = true := by
      have h1 := descsMatch_uploadBytes env s1 xd (.indexP x xb) rfl rfl
      rw [he2] at h1
      exact h1
    rcases r2 with _ | e
    · dsimp only
      refine ⟨?_, ?_, ?_⟩
      · intro ds
        rw [orderedFrom_append, po ds, ho2 ds]
        rfl
      · rw [descsMatch_append, pd, hdm2]
        rfl
      · intro e3 h; cases h
    · dsimp only
      refine ⟨?_, ?_, ?_⟩
      · intro ds
        rw [orderedFrom_append, po ds, ho2 ds]
        rfl
      · rw [descsMatch_append, pd, hdm2]
        rfl
      · intro e3 h
        cases h
        have herr2 : (uploadBytes env s1 xd (.indexP x xb)).2.2 = some e := by rw [hm]
        have h1 := uploadBytes_err_stops env s1 xd (.indexP x xb) e herr2
        rw [he2] at h1
        exact stopsAtFirst_append e1 e2 e (pok manifests rfl).1 h1

/-- Bundled trace facts about the matrix loop: amended ordering,
descriptor/payload agreement, and exactly one classification log entry per
matrix entry, in order, regardless of which cases fail. -/
theorem runArtifactCases_spec (cases0 : List artifactConstructOptions) :
    ∀ (env : Env) (s : St) (subjectDesc : Descriptor) (i : Nat),
      (∀ ds, orderedFrom refsAmended (runArtifactCases env s subjectDesc i cases0).2.1 ds = true)
    ∧ descsMatch (runArtifactCases env s subjectDesc i cases0).2.1 = true
    ∧ (runArtifactCases env s subjectDesc i cases0).2.2.map LogEntry.idx
        = List.range' i cases0.length := by
  induction cases0 with
  | nil => intro env s subjectDesc i; exact ⟨fun ds => rfl, rfl, rfl⟩
  | cons opt rest ih =>
    intro env s subjectDesc i
    simp only [runArtifactCases]
    set subj : Descriptor :=
      (if opt.hasSubject then
        (if opt.subjectInRegistry then subjectDesc else uuidDescriptor (env.uuid i))
      else emptyDescriptor : Descriptor) with hsubj
    rcases hp : pushOCIArtifact env s subj "repo" (tagPref ++ "-oci-" ++ toString i) opt
      with ⟨s1, e1, r1⟩
    rcases pushOCIArtifact_spec env s subj "repo" (tagPref ++ "-oci-" ++ toString i) opt
      with ⟨po, pd, _, _⟩
    rw [hp] at po pd
    dsimp only at po pd
    rcases hr : runArtifactCases env s1 subjectDesc (i + 1) rest with ⟨s2, e2, logs⟩
    rcases ih env s1 subjectDesc (i + 1) with ⟨iho, ihd, ihl⟩
    rw [hr] at iho ihd ihl
    dsimp only at iho ihd ihl
    rcases r1 with e | d <;> dsimp only <;> refine ⟨?_, ?_, ?_⟩
    · intro ds
      rw [orderedFrom_append, po ds, iho]
      rfl
    · rw [descsMatch_append, pd, ihd]
      rfl
    · rw [List.map_cons, ihl]
      simp only [List.length_cons, List.range'_succ]
      by_cases hexp : opt.errorExpected = true <;> simp [hexp, LogEntry.idx]
    · intro ds
      rw [orderedFrom_append, po ds, iho]
      rfl
    · rw [descsMatch_append, pd, ihd]
      rfl
    · rw [List.map_cons, ihl]
      simp only [List.length_cons, List.range'_succ]
      rfl

/-- Bundled trace facts about GenerateOCIArtifacts: amended ordering and
descriptor/payload agreement always; when the up-front subject push fails
the whole run returns that error having attempted no matrix case; when it
succeeds the run classifies all eight cases in order and returns success,
and the subject upload is complete before any case event. -/
theorem GenerateOCIArtifacts_spec (env : Env) (s : St) :
      (∀ ds, orderedFrom refsAmended (GenerateOCIArtifacts env s).2.1 ds = true)
    ∧ descsMatch (GenerateOCIArtifacts env s).2.1 = true
    ∧ (∀ e, (pushOCIImage env s "repo" "oci-subject" ociConfigBytes 2).2.2 = .error e →
          GenerateOCIArtifacts env s
            = ((pushOCIImage env s "repo" "oci-subject" ociConfigBytes 2).1,
               (pushOCIImage env s "repo" "oci-subject" ociConfigBytes 2).2.1,
               [], .error e))
    ∧ (∀ d, (pushOCIImage env s "repo" "oci-subject" ociConfigBytes 2).2.2 = .ok d →
          (GenerateOCIArtifacts env s).2.2.2 = .ok ()
        ∧ (GenerateOCIArtifacts env s).2.2.1.map LogEntry.idx
            = List.range' 0 artifactOpts.length
        ∧ (∃ rest, (GenerateOCIArtifacts env s).2.1
            = (pushOCIImage env s "repo" "oci-subject" ociConfigBytes 2).2.1 ++ rest)
        ∧ d.digest ∈ accDones (pushOCIImage env s "repo" "oci-subject" ociConfigBytes 2).2.1 []) := by
  simp only [GenerateOCIArtifacts]
  rcases hu : pushOCIImage env s "repo" "oci-subject" ociConfigBytes 2 with ⟨s1, e1, r1⟩
  rcases pushOCIImage_spec env s "repo" "oci-subject" ociConfigBytes 2 with ⟨po, pd, pok, _⟩
  rw [hu] at po pd pok
  dsimp only at po pd pok
  have poA : ∀ ds, orderedFrom refsAmended e1 ds = true :=
    fun ds => orderedFrom_mono refsAmended refsFull refsAmended_subset e1 ds (po ds)
  rcases r1 with e | d
  · -- subject push failed
    dsimp only
    refine ⟨poA, pd, ?_, ?_⟩
    · intro e3 h
      cases h
      rfl
    · intro d h; cases h
  · -- subject push succeeded
    dsimp only
    rcases hr : runArtifactCases env s1 d 0 artifactOpts with ⟨s2, e2, logs⟩
    rcases runArtifactCases_spec artifactOpts env s1 d 0 with ⟨iho, ihd, ihl⟩
    rw [hr] at iho ihd ihl
    dsimp only at iho ihd ihl
    dsimp only
    refine ⟨?_, ?_, ?_, ?_⟩
    · intro ds
      rw [orderedFrom_append, poA ds, iho]
      rfl
    · rw [descsMatch_append, pd, ihd]
      rfl
    · intro e3 h; cases h
    · intro d2 h
      cases h
      exact ⟨rfl, ihl, ⟨e2, rfl⟩, (pok d rfl).2 []⟩

end ImageGen

namespace Claims

open Reg Check ImageGen RegTransport Fixtures

/-- Claim C1, as stated, is false on the code: pushOCIArtifact uploads a
manifest referencing descriptors whose uploads never completed within that
build.  With matrix entry 1's options (teleport-like: real config, real
layers) its manifest references the scratch config descriptor, three fresh
layer descriptors and a subject, none of them uploaded in the build (the
fresh layer bytes are synthesized only to derive descriptors; the source
never uploads them); with matrix entry 3's options (scratch config, one
non-scratch layer) the referenced fresh layer descriptor is likewise never
uploaded. -/
theorem claim_C1_counterexample :
    orderedFrom refsFull
      (pushOCIArtifact env0 s0 subj0 "repo" "tag" teleOpts).2.1 [] = false
  ∧ orderedFrom refsFull
      (pushOCIArtifact env0 s0 subj0 "repo" "tag" opts3).2.1 [] = false := by
  exact ⟨by decide, by decide⟩

/-- Claim C1 (amended): pushOCIImage and GenerateOCIIndex never issue a
manifest or index upload before the uploads of every descriptor it
references (config, all layers, all index members) have completed within
the build.  pushOCIArtifact and GenerateOCIArtifacts satisfy the ordering
only under the amended reference map that exempts subject-bearing
manifests: the artifact manifest, which always carries a subject pointer,
references its fresh layer descriptors, its subject, and on some paths the
scratch config descriptor without any upload of them happening in the
build.  The shared in-registry subject the matrix cases reference does
complete upload during the up-front subject push, before any case event. -/
theorem claim_C1_ordering (env : Env) (s : St) (repo tag : String)
    (configB : GoBytes) (layercount : Nat) (subject : Descriptor)
    (opts : artifactConstructOptions) (hasMediaType : Bool) :
      orderedFrom refsFull (pushOCIImage env s repo tag configB layercount).2.1 [] = true
    ∧ orderedFrom refsFull (GenerateOCIIndex env s hasMediaType).2.1 [] = true
    ∧ orderedFrom refsAmended (pushOCIArtifact env s subject repo tag opts).2.1 [] = true
    ∧ orderedFrom refsAmended (GenerateOCIArtifacts env s).2.1 [] = true
    ∧ (∀ d, (pushOCIImage env s "repo" "oci-subject" ociConfigBytes 2).2.2 = .ok d →
        (∃ rest, (GenerateOCIArtifacts env s).2.1
            = (pushOCIImage env s "repo" "oci-subject" ociConfigBytes 2).2.1 ++ rest)
        ∧ d.digest ∈ accDones (pushOCIImage env s "repo" "oci-subject" ociConfigBytes 2).2.1 []) :=
  ⟨(pushOCIImage_spec env s repo tag configB layercount).1 [],
   (GenerateOCIIndex_spec env s hasMediaType).1 [],
   (pushOCIArtifact_spec env s subject repo tag opts).1 [],
   (GenerateOCIArtifacts_spec env s).1 [],
   fun d h => ((GenerateOCIArtifacts_spec env s).2.2.2 d h).2.2⟩

theorem claim_C1_ordering_witness :
    orderedFrom refsAmended (GenerateOCIArtifacts env0 s0).2.1 [] = true
  ∧ (∃ rest, (GenerateOCIArtifacts env0 s0).2.1
      = (pushOCIImage env0 s0 "repo" "oci-subject" ociConfigBytes 2).2.1 ++ rest)
  ∧ subjDesc0.digest
      ∈ accDones (pushOCIImage env0 s0 "repo" "oci-subject" ociConfigBytes 2).2.1 [] :=
  ⟨(claim_C1_ordering env0 s0 "repo" "tag" ociConfigBytes 2 subj0 teleOpts false).2.2.2.1,
   (claim_C1_ordering env0 s0 "repo" "tag" ociConfigBytes 2 subj0 teleOpts false).2.2.2.2
     subjDesc0 rfl⟩

/-- Claim C2: the invariant (digest and size computed from the literal
uploaded bytes) is violated by the older pushOCIImage variant, whose layer
descriptor carries the digest and size of the config bytes while the layer
bytes are uploaded; on the failing input (any layer count above zero, here
1) its recorded trace contains that mismatched call, so the
content-addressing checker rejects it.  The current proxy.go builder
satisfies the invariant on every run. -/
theorem claim_C2_digest_from_bytes :
      descsMatch (CheckHealth.pushOCIImage env0 s0 "repo" "tag"
        CheckHealth.ociConfigBytes 1).2.1 = false
    ∧ Event.call
        ⟨mediaTypeImageLayer, digestFromBytes CheckHealth.ociConfigBytes,
          CheckHealth.ociConfigBytes.length⟩
        (.blob (CheckHealth.layerBytesOf 0 0))
        ∈ (CheckHealth.pushOCIImage env0 s0 "repo" "tag" CheckHealth.ociConfigBytes 1).2.1
    ∧ digestFromBytes (CheckHealth.layerBytesOf 0 0) ≠ digestFromBytes CheckHealth.ociConfigBytes
    ∧ (∀ (env : Env) (s : St) (repo tag : String) (configB : GoBytes) (layercount : Nat)
        (subject : Descriptor) (opts : artifactConstructOptions) (hasMediaType : Bool),
          descsMatch (pushOCIImage env s repo tag configB layercount).2.1 = true
        ∧ descsMatch (pushOCIArtifact env s subject repo tag opts).2.1 = true
        ∧ descsMatch (GenerateOCIIndex env s hasMediaType).2.1 = true
        ∧ descsMatch (GenerateOCIArtifacts env s).2.1 = true) :=
  ⟨by decide, by decide, by decide,
   fun env s repo tag configB layercount subject opts hasMediaType =>
    ⟨(pushOCIImage_spec env s repo tag configB layercount).2.1,
     (pushOCIArtifact_spec env s subject repo tag opts).2.1,
     (GenerateOCIIndex_spec env s hasMediaType).2.1,
     (GenerateOCIArtifacts_spec env s).2.1⟩⟩

/-- Claim C3: when the push capability reports the content already present
at the descriptor digest, uploadBytes succeeds without any transfer; hence a
repeat of a successful upload of the same descriptor and bytes succeeds,
again without a transfer. -/
theorem claim_C3_idempotent (env : Env) (s : St) (d : Descriptor) (p : Payload) :
    (d.digest ∈ s.present →
      uploadBytes env s d p
        = ({ s with callIdx := s.callIdx + 1 }, [.call d p, .done d], none))
  ∧ ((uploadBytes env s d p).2.2 = none →
      (uploadBytes env (uploadBytes env s d p).1 d p).2.2 = none
    ∧ Event.transfer d ∉ (uploadBytes env (uploadBytes env s d p).1 d p).2.1) := by
  constructor
  · exact uploadBytes_exists_skip env s d p
  · intro hok
    have hpres := uploadBytes_ok_present env s d p hok
    rw [uploadBytes_exists_skip env (uploadBytes env s d p).1 d p hpres]
    refine ⟨rfl, ?_⟩
    intro hmem
    rcases List.mem_cons.mp hmem with h | h
    · exact Event.noConfusion h
    · exact Event.noConfusion (List.mem_singleton.mp h)

theorem claim_C3_idempotent_witness :
    uploadBytes env0 sPresent ScratchDescriptor (.blob scratchData)
      = ({ sPresent with callIdx := sPresent.callIdx + 1 },
         [.call ScratchDescriptor (.blob scratchData), .done ScratchDescriptor], none)
  ∧ ((uploadBytes env0 (uploadBytes env0 s0 ScratchDescriptor (.blob scratchData)).1
        ScratchDescriptor (.blob scratchData)).2.2 = none
    ∧ Event.transfer ScratchDescriptor
        ∉ (uploadBytes env0 (uploadBytes env0 s0 ScratchDescriptor (.blob scratchData)).1
            ScratchDescriptor (.blob scratchData)).2.1) :=
  ⟨(claim_C3_idempotent env0 sPresent ScratchDescriptor (.blob scratchData)).1 (by decide),
   (claim_C3_idempotent env0 s0 ScratchDescriptor (.blob scratchData)).2 (by decide)⟩

/-- Claim C4: in bearer mode, roundTrip first issues the probe; a probe
status other than 401 is the error "failed to get challenge" with no
further request issued; a non-bearer challenge scheme is the error "server
does not support bearer authentication"; otherwise the real request carries
Authorization "Bearer " followed by the token getToken returned, and the
round-tripper result on that real request is returned verbatim. -/
theorem claim_C4_bearer_roundtrip (t : Transport) (tripper : Tripper)
    (regReq : RegistryRequest) (hb : t.authType = .bearerAuth) :
    (∀ info, tripper (probeOf regReq) = .ok info → info.code ≠ 401 →
        roundTrip t tripper regReq
          = ([probeOf regReq], .error (.msg "failed to get challenge")))
  ∧ (∀ info, tripper (probeOf regReq) = .ok info → info.code = 401 →
        (parseAuthHeader info.challenge).1 ≠ "bearer" →
        roundTrip t tripper regReq
          = ([probeOf regReq],
             .error (.msg "server does not support bearer authentication")))
  ∧ (∀ info tok reqs, tripper (probeOf regReq) = .ok info → info.code = 401 →
        (parseAuthHeader info.challenge).1 = "bearer" →
        getToken t tripper (parseAuthHeader info.challenge).2 = (reqs, .ok tok) →
        roundTrip t tripper regReq
          = (probeOf regReq :: reqs
              ++ [{ baseReqOf regReq with authorization := some ("Bearer " ++ tok) }],
             tripper { baseReqOf regReq with authorization := some ("Bearer " ++ tok) })) := by
  simp only [roundTrip, hb]
  refine ⟨?_, ?_, ?_⟩
  · intro info hprobe hcode
    rw [hprobe]
    dsimp only
    rw [if_pos hcode]
  · intro info hprobe hcode hscheme
    rw [hprobe]
    dsimp only
    rw [if_neg (fun hne => hne hcode), if_neg hscheme]
  · intro info tok reqs hprobe hcode hscheme hget
    rw [hprobe]
    dsimp only
    rw [if_neg (fun hne => hne hcode), if_pos hscheme, hget]

theorem claim_C4_bearer_roundtrip_witness :
    roundTrip bearerT tripper1 regReq1
      = ([probeOf regReq1,
          tokenReqOf bearerT (parseAuthHeader challenge1).2,
          { baseReqOf regReq1 with authorization := some ("Bearer " ++ "tok123") }],
         .ok ⟨200, "", .obj none⟩) := by
  have h := (claim_C4_bearer_roundtrip bearerT tripper1 regReq1 rfl).2.2
    ⟨401, challenge1, .obj none⟩ "tok123"
    [tokenReqOf bearerT (parseAuthHeader challenge1).2]
    rfl rfl rfl rfl
  rw [h]
  rfl

/-- Claim C5, as stated, is false on the code: a 200 token response whose
JSON object has no access_token field is not an error; json.Unmarshal
leaves the field at its zero value and getToken returns the empty token
with no error. -/
theorem claim_C5_counterexample :
    (getToken bearerT tripper200 [("realm", "https://x/token")]).2 = .ok "" := rfl

/-- Claim C5 (amended): getToken issues exactly one GET to the realm URL
with scope and service (when present) as query parameters and basic auth
iff a username is set; a non-200 status is an error naming expected versus
actual; a 200 body that is not valid JSON is a decode error; a 200 JSON
object yields the access_token field, the empty string when the field is
missing, with no error. -/
theorem claim_C5_getToken (t : Transport) (tripper : Tripper)
    (params : List (String × String)) :
    ((getToken t tripper params).1 = [tokenReqOf t params]
      ∧ (tokenReqOf t params).method = "GET"
      ∧ (tokenReqOf t params).url = (mget params "realm").getD ""
      ∧ (tokenReqOf t params).hasBody = false
      ∧ (tokenReqOf t params).basicAuth
          = (if t.username ≠ "" then some (t.username, t.password) else none)
      ∧ (tokenReqOf t params).query
          = ((match mget params "scope" with
              | some v => [("scope", v)]
              | none => [])
             ++ (match mget params "service" with
                 | some v => [("service", v)]
                 | none => [])))
  ∧ (∀ info, tripper (tokenReqOf t params) = .ok info → info.code ≠ 200 →
      (getToken t tripper params).2
        = .error (.msg ("get access token failed, expected: 200, got: "
            ++ toString info.code)))
  ∧ (∀ info, tripper (tokenReqOf t params) = .ok info → info.code = 200 →
        info.body = .invalid → (getToken t tripper params).2 = .error .jsonDecode)
  ∧ (∀ info tok, tripper (tokenReqOf t params) = .ok info → info.code = 200 →
        info.body = .obj tok → (getToken t tripper params).2 = .ok (tok.getD "")) := by
  refine ⟨⟨?_, rfl, rfl, rfl, rfl, rfl⟩, ?_, ?_, ?_⟩
  · simp only [getToken]
    rcases h : tripper (tokenReqOf t params) with e | info
    · rfl
    · dsimp only
      split_ifs
      · rfl
      · rcases info.body with _ | tok <;> rfl
  · intro info h hne
    simp only [getToken]
    rw [h]
    dsimp only
    rw [if_pos hne]
  · intro info h hcode hbody
    simp only [getToken]
    rw [h]
    dsimp only
    rw [if_neg (fun hne => hne hcode), hbody]
  · intro info tok h hcode hbody
    simp only [getToken]
    rw [h]
    dsimp only
    rw [if_neg (fun hne => hne hcode), hbody]

theorem claim_C5_getToken_witness :
    (getToken bearerT tripper1 (parseAuthHeader challenge1).2).1
      = [tokenReqOf bearerT (parseAuthHeader challenge1).2]
  ∧ (getToken bearerT tripper1 (parseAuthHeader challenge1).2).2 = .ok "tok123" :=
  ⟨(claim_C5_getToken bearerT tripper1 (parseAuthHeader challenge1).2).1.1,
   (claim_C5_getToken bearerT tripper1 (parseAuthHeader challenge1).2).2.2.2
     ⟨200, "", .obj (some "tok123")⟩ (some "tok123") rfl rfl rfl⟩

/-- Claim C6, as stated, is false on the code: parseAuthHeader keys are
matched case-sensitively (the regex alternation contains only the lowercase
words), so a header carrying Realm with a capital R yields no realm
parameter although a case-insensitive match would extract it. -/
theorem claim_C6_counterexample :
    (parseAuthHeader "Bearer Realm=\"https://x/token\",service=\"svc\"").2
      = [("service", "svc")]
  ∧ mget (parseAuthHeader "Bearer Realm=\"https://x/token\",service=\"svc\"").2 "realm"
      = none := ⟨rfl, rfl⟩

/-- Claim C6 (amended): on the spec header parseAuthHeader yields scheme
"bearer" and the three parameters with their literal quoted contents; the
scheme token is lowercased; the realm/service/scope keys are matched
case-sensitively in lowercase, so a capitalized key is not extracted. -/
theorem claim_C6_parseAuthHeader :
    parseAuthHeader "Bearer realm=\"https://x/token\",service=\"svc\",scope=\"repo:read\""
      = ("bearer",
         [("realm", "https://x/token"), ("service", "svc"), ("scope", "repo:read")])
  ∧ parseAuthHeader "BEARER realm=\"https://x/token\""
      = ("bearer", [("realm", "https://x/token")])
  ∧ parseAuthHeader "Bearer Realm=\"https://x/token\"" = ("bearer", []) :=
  ⟨rfl, rfl, rfl⟩

/-- Claim C7, as stated, is false on the code: matrix entry 6 has
includesArtifactType = false, configIsScratch = true, layersAreScratch =
true and layercount = 1 (differing from entry 2 only in hasSubject) yet
errorExpected = false. -/
theorem claim_C7_counterexample :
    ¬ (∀ o ∈ artifactOpts,
        (o.includesArtifactType = false ∧ o.configIsScratch = true
          ∧ o.layersAreScratch = true ∧ o.layercount = 1) →
        o.errorExpected = true) := by
  decide

/-- Claim C7 (amended): every matrix entry with includesArtifactType =
false, configIsScratch = true, layersAreScratch = true, layercount = 1 and
hasSubject = true has errorExpected = true, and every entry with
layercount = 0 has errorExpected = true. -/
theorem claim_C7_matrix :
    (∀ o ∈ artifactOpts,
        (o.includesArtifactType = false ∧ o.configIsScratch = true
          ∧ o.layersAreScratch = true ∧ o.layercount = 1 ∧ o.hasSubject = true) →
        o.errorExpected = true)
  ∧ (∀ o ∈ artifactOpts, o.layercount = 0 → o.errorExpected = true) := by
  decide

theorem claim_C7_matrix_witness :
    (⟨false, true, true, 1, true, true, true⟩ : artifactConstructOptions).errorExpected = true
  ∧ (⟨true, true, false, 0, false, false, true⟩ : artifactConstructOptions).errorExpected = true :=
  ⟨claim_C7_matrix.1 ⟨false, true, true, 1, true, true, true⟩ (by decide) (by decide),
   claim_C7_matrix.2 ⟨true, true, false, 0, false, false, true⟩ (by decide) (by decide)⟩

/-- Claim C8: once the up-front subject push succeeds, GenerateOCIArtifacts
classifies every matrix entry (one log entry per case, in declaration
order) and returns success no matter which cases fail, while
GenerateOCIIndex propagates the first error it encounters and its trace
stops at that first failing upload with nothing after it. -/
theorem claim_C8_fault_isolation (env : Env) (s : St) (hasMediaType : Bool) :
    (∀ d, (pushOCIImage env s "repo" "oci-subject" ociConfigBytes 2).2.2 = .ok d →
        (GenerateOCIArtifacts env s).2.2.2 = .ok ()
      ∧ (GenerateOCIArtifacts env s).2.2.1.map LogEntry.idx
          = List.range' 0 artifactOpts.length)
  ∧ (∀ e, (GenerateOCIIndex env s hasMediaType).2.2 = .error e →
        stopsAtFirst (GenerateOCIIndex env s hasMediaType).2.1 e) :=
  ⟨fun d h =>
    ⟨((GenerateOCIArtifacts_spec env s).2.2.2 d h).1,
     ((GenerateOCIArtifacts_spec env s).2.2.2 d h).2.1⟩,
   (GenerateOCIIndex_spec env s hasMediaType).2.2⟩

theorem claim_C8_fault_isolation_witness :
    ((GenerateOCIArtifacts env0 s0).2.2.2 = .ok ()
      ∧ (GenerateOCIArtifacts env0 s0).2.2.1.map LogEntry.idx
          = List.range' 0 artifactOpts.length)
  ∧ stopsAtFirst (GenerateOCIIndex envFail0 s0 false).2.1 (.network 0) :=
  ⟨(claim_C8_fault_isolation env0 s0 false).1 subjDesc0 rfl,
   (claim_C8_fault_isolation envFail0 s0 false).2 (.network 0) rfl⟩

/-- Claim C9, as stated, is false on the code: with configIsScratch = false
(matrix entry 4) the real config bytes are marshalled and uploaded, but the
manifest pushOCIArtifact uploads references the scratch descriptor as its
config, not the real config descriptor. -/
theorem claim_C9_counterexample :
    manifestConfigsOf (pushOCIArtifact env0 s0 subj0 "repo" "tag" opts4).2.1
      = [ScratchDescriptor]
  ∧ ScratchDescriptor ≠ configDescOf ociConfigBytes := by
  exact ⟨by decide, by decide⟩

/-- Claim C9 (amended): pushOCIArtifact first uploads the scratch blob under
the scratch descriptor when configIsScratch and the marshalled real config
under its own descriptor otherwise; but every manifest whose upload it
issues references the scratch descriptor as its config in both cases. -/
theorem claim_C9_config_handling (env : Env) (s : St) (subject : Descriptor)
    (repo tag : String) (opts : artifactConstructOptions) :
    (∃ tail, (pushOCIArtifact env s subject repo tag opts).2.1
        = .call (if opts.configIsScratch then ScratchDescriptor
                 else configDescOf ociConfigBytes)
            (.blob (if opts.configIsScratch then scratchData else ociConfigBytes))
          :: tail)
  ∧ (∀ c ∈ manifestConfigsOf (pushOCIArtifact env s subject repo tag opts).2.1,
        c = ScratchDescriptor) :=
  ⟨(pushOCIArtifact_spec env s subject repo tag opts).2.2.1,
   (pushOCIArtifact_spec env s subject repo tag opts).2.2.2⟩

theorem claim_C9_config_handling_witness :
    (∃ tail, (pushOCIArtifact env0 s0 subj0 "repo" "tag" teleOpts).2.1
        = .call (configDescOf ociConfigBytes) (.blob ociConfigBytes) :: tail)
  ∧ ScratchDescriptor = ScratchDescriptor :=
  ⟨(claim_C9_config_handling env0 s0 subj0 "repo" "tag" teleOpts).1,
   (claim_C9_config_handling env0 s0 subj0 "repo" "tag" teleOpts).2 ScratchDescriptor
     (by decide)⟩

/-- Claim C10: GenerateOCIArtifacts returns an error, with no matrix case
attempted and no classification logged, exactly when the up-front subject
image push fails (and it returns that same error); once the subject push
succeeds it returns success regardless of the outcomes of the matrix
cases. -/
theorem claim_C10_subject_gate (env : Env) (s : St) :
    (∀ e, (pushOCIImage env s "repo" "oci-subject" ociConfigBytes 2).2.2 = .error e →
        GenerateOCIArtifacts env s
          = ((pushOCIImage env s "repo" "oci-subject" ociConfigBytes 2).1,
             (pushOCIImage env s "repo" "oci-subject" ociConfigBytes 2).2.1,
             [], .error e))
  ∧ (∀ d, (pushOCIImage env s "repo" "oci-subject" ociConfigBytes 2).2.2 = .ok d →
        (GenerateOCIArtifacts env s).2.2.2 = .ok ()) :=
  ⟨(GenerateOCIArtifacts_spec env s).2.2.1,
   fun d h => ((GenerateOCIArtifacts_spec env s).2.2.2 d h).1⟩

theorem claim_C10_subject_gate_witness :
    GenerateOCIArtifacts envFail0 s0
      = ((pushOCIImage envFail0 s0 "repo" "oci-subject" ociConfigBytes 2).1,
         (pushOCIImage envFail0 s0 "repo" "oci-subject" ociConfigBytes 2).2.1,
         [], .error (.network 0))
  ∧ (GenerateOCIArtifacts env0 s0).2.2.2 = .ok () :=
  ⟨(claim_C10_subject_gate envFail0 s0).1 (.network 0) rfl,
   (claim_C10_subject_gate env0 s0).2 subjDesc0 rfl⟩

end Claims
